import Mathlib

/-!
Verification of the rilox tree-walking Lox interpreter (Rust).

This file shallowly embeds the parts of the source that the verified
properties speak about: the token/AST data model (src/token.rs,
src/token_type.rs, src/expr.rs, src/stmt.rs), the runtime object model
(src/object.rs, src/lox_function.rs, src/lox_class.rs, src/lox_instance.rs),
the environment chain (src/environment.rs), the resolver (src/resolver.rs),
the recursive-descent parser (src/parser.rs) and the interpreter
(src/interpreter.rs).

Modelling conventions:
* Rust `f64` numbers are modelled as `Rat`.  The verified properties are
  about control flow (which error fires, which operand is returned), not
  about floating-point rounding, so an exact field is an adequate model of
  the arithmetic; the division-by-zero guard `right_number != 0.0`
  becomes `n ≠ 0` on `Rat`.
* `Rc<RefCell<Environment>>` and `Rc<RefCell<LoxInstance>>` are modelled as
  addresses (indices) into explicit stores held in the interpreter state
  (`Interp.envs`, `Interp.instances`); allocation appends to the store.
* Fallible Rust code returning `Result<T, LoxErr>` becomes `Res T` below,
  which additionally has a `panic` outcome for Rust panics
  (`unwrap`, `assert!`, out-of-bounds indexing, `unreachable!`) and an
  `out` outcome used when the step-counting fuel of a recursive function
  runs out (the Rust original simply keeps running in that case).
* Rust `HashMap<String, V>` is modelled as an association list with
  insert-replaces-existing-key semantics, so keys are unique and lookup
  agrees with the map; `HashMap` equality (same keys, equal values) is
  modelled on that representation.
* The `Comma` and `Conditional` expression forms present in src/expr.rs are
  omitted: the parser never produces them and the resolver has no arm for
  them (the spec calls them dead forms that may be omitted).
* `print` output and `eprintln` diagnostics are modelled by the returned
  values / accumulated error lists; nothing else observable is dropped.
-/

set_option maxRecDepth 10000

namespace Rilox

/-- src/token_type.rs: the token kinds. -/
inductive TokenType where
  | LeftParen | RightParen | LeftBrace | RightBrace
  | Comma | Dot | Minus | Plus | Semicolon | Slash | Star
  | Bang | BangEqual | Equal | EqualEqual
  | Greater | GreaterEqual | Less | LessEqual
  | Identifier | String | Number
  | And | Class | Else | False | Fun | For | If | Nil | Or
  | Print | Return | Super | This | True | Var | While
  | Eof
deriving DecidableEq, Repr

/-- src/token.rs `TokenLiteral`: the literal value a token carries. -/
inductive TokenLiteral where
  | None
  | Bool (b : Bool)
  | String (s : String)
  | Number (n : Rat)
deriving DecidableEq, Repr

/-- src/token.rs `Token`. -/
structure Token where
  token_type : TokenType
  lexeme : String
  literal : TokenLiteral
  line : Nat
deriving DecidableEq, Repr

/-- src/expr.rs `VariableExpr`: a variable use, annotated by the resolver
with an optional hop distance (initially `none`). -/
structure VariableExpr where
  name : Token
  distance : Option Nat
deriving DecidableEq, Repr

/-- src/expr.rs `Expr`: the expression AST.  Nodes that the resolver
annotates (`Assign`, `Super`, `This`, `Variable`) carry their
`distance : Option Nat` field inline. -/
inductive Expr where
  | Assign (name : Token) (value : Expr) (distance : Option Nat)
  | Binary (left : Expr) (operator : Token) (right : Expr)
  | Call (callee : Expr) (paren : Token) (arguments : List Expr)
  | Get (object : Expr) (name : Token)
  | Grouping (expression : Expr)
  | Literal (literal : TokenLiteral)
  | Logical (left : Expr) (operator : Token) (right : Expr)
  | Set (object : Expr) (name : Token) (value : Expr)
  | Super (keyword : Token) (method : Token) (distance : Option Nat)
  | This (keyword : Token) (distance : Option Nat)
  | Unary (operator : Token) (right : Expr)
  | Variable (v : VariableExpr)

mutual
/-- src/stmt.rs `Stmt`.  (`Break` is a dead form: the parser never
produces it and the interpreter has no arm for it.) -/
inductive Stmt where
  | Block (statements : List Stmt)
  | ClassDeclaration (class_declaration : ClassDeclaration)
  | Expression (expression : Expr)
  | FunctionDeclaration (function_declaration : FunctionDeclaration)
  | If (condition : Expr) (then_branch : Stmt) (else_branch : Option Stmt)
  | While (condition : Expr) (body : Stmt)
  | Print (expression : Expr)
  | Return (keyword : Token) (value : Option Expr)
  | Var (name : Token) (initializer : Option Expr)

/-- src/stmt.rs `FunctionDeclaration`. -/
inductive FunctionDeclaration where
  | mk (name : Token) (params : List Token) (body : List Stmt)

/-- src/stmt.rs `ClassDeclaration`. -/
inductive ClassDeclaration where
  | mk (name : Token) (superclass : Option VariableExpr)
       (methods : List FunctionDeclaration)
end

def FunctionDeclaration.name : FunctionDeclaration → Token
  | .mk n _ _ => n

def FunctionDeclaration.params : FunctionDeclaration → List Token
  | .mk _ p _ => p

def FunctionDeclaration.body : FunctionDeclaration → List Stmt
  | .mk _ _ b => b

def ClassDeclaration.name : ClassDeclaration → Token
  | .mk n _ _ => n

def ClassDeclaration.superclass : ClassDeclaration → Option VariableExpr
  | .mk _ s _ => s

def ClassDeclaration.methods : ClassDeclaration → List FunctionDeclaration
  | .mk _ _ m => m

/-- Store address: the model of an `Rc<RefCell<...>>` handle. -/
abbrev Addr := Nat

/-- src/object.rs `NativeFunction`. -/
structure NativeFunction where
  name : String
deriving DecidableEq, Repr

/-- src/lox_function.rs `LoxFunction`.  The closure is an address into the
environment store. -/
structure LoxFunction where
  declaration : FunctionDeclaration
  closure : Addr
  is_initializer : Bool

/-- src/lox_class.rs `LoxClass`.  `superclass` is `Option<Box<LoxClass>>`
in the source, an owned structural copy, so it is a plain recursive field
here; `methods` models the `HashMap<String, LoxFunction>`. -/
inductive LoxClass where
  | mk (name : String) (superclass : Option LoxClass)
       (methods : List (String × LoxFunction))

def LoxClass.name : LoxClass → String
  | .mk n _ _ => n

def LoxClass.superclass : LoxClass → Option LoxClass
  | .mk _ s _ => s

def LoxClass.methods : LoxClass → List (String × LoxFunction)
  | .mk _ _ m => m

/-- src/object.rs `Object`: the runtime values.  `Instance` holds the
address of the shared `Rc<RefCell<LoxInstance>>` handle. -/
inductive Object where
  | None
  | Bool (b : Bool)
  | String (s : String)
  | Number (n : Rat)
  | Function (f : LoxFunction)
  | NativeFunction (nf : NativeFunction)
  | Class (c : LoxClass)
  | Instance (addr : Addr)

/-- src/lox_instance.rs `LoxInstance` (`class` is a Lean keyword, so the
field is `klass`). -/
structure LoxInstance where
  klass : LoxClass
  fields : List (String × Object)

/-- src/environment.rs `Environment`: parent pointer plus bindings. -/
structure Environment where
  enclosing : Option Addr
  values : List (String × Object)

/-- src/err.rs `LoxErr` (the variants the verified components produce;
`ScriptUsage`, `Io` and `Many` belong to the CLI driver). -/
inductive LoxErr where
  | Scan (line : Nat) (message : String)
  | Parse (line : Nat) (lexeme : String) (message : String)
  | Runtime (line : Nat) (message : String)
  | RuntimeReturn (ret_value : Object)
  | Resolve (line : Nat) (message : String)

/-- Outcome of running a piece of embedded Rust: `ok`/`err` model
`Result`, `panic` models a Rust panic (`unwrap`, `assert!`, index out of
bounds, `unreachable!`), and `out` means the step-counting fuel of the
model ran out (no Rust counterpart: the original just keeps running). -/
inductive Res (α : Type) where
  | ok (a : α)
  | err (e : LoxErr)
  | panic (msg : String)
  | out

/-- Interpreter state (src/interpreter.rs `Interpreter`), with the
explicit stores that model the `Rc<RefCell<...>>` heaps.  `clock_time`
models the wall clock read by the native `clock` function. -/
structure Interp where
  had_runtime_error : Bool
  environment : Addr
  globals : Addr
  envs : List Environment
  instances : List LoxInstance
  clock_time : Rat

/-- Association-list lookup (model of `HashMap::get`). -/
def alistGet : List (String × α) → String → Option α
  | [], _ => none
  | (k, v) :: rest, key => if k = key then some v else alistGet rest key

/-- Association-list insert with replace-on-existing-key semantics
(model of `HashMap::insert`). -/
def alistInsert : List (String × α) → String → α → List (String × α)
  | [], key, v => [(key, v)]
  | (k, w) :: rest, key, v =>
      if k = key then (k, v) :: rest else (k, w) :: alistInsert rest key v

/-- Model of `HashMap::contains_key`. -/
def alistContains (m : List (String × α)) (key : String) : Bool :=
  (alistGet m key).isSome

/-- Update an existing key only (model of `HashMap::get_mut` followed by
assignment): `none` when the key is absent. -/
def alistUpdate : List (String × α) → String → α → Option (List (String × α))
  | [], _, _ => none
  | (k, w) :: rest, key, v =>
      if k = key then some ((k, v) :: rest)
      else (alistUpdate rest key v).map ((k, w) :: ·)

/-- Dereference an environment handle.  A `none` result has no Rust
counterpart (an `Rc` is always valid); callers turn it into `panic`. -/
def Interp.lookupEnv (st : Interp) (a : Addr) : Option Environment :=
  st.envs.get? a

/-- Write back through an environment handle. -/
def Interp.setEnv (st : Interp) (a : Addr) (e : Environment) : Interp :=
  { st with envs := st.envs.set a e }

/-- `Environment::new()` followed by `set_enclosing`: allocate a fresh
environment node and return its address. -/
def Interp.allocEnv (st : Interp) (enclosing : Option Addr)
    (values : List (String × Object)) : Interp × Addr :=
  ({ st with envs := st.envs ++ [⟨enclosing, values⟩] }, st.envs.length)

/-- src/environment.rs `Environment::define`, applied through a handle. -/
def Interp.defineIn (st : Interp) (a : Addr) (name : String) (v : Object) :
    Interp :=
  match st.lookupEnv a with
  | some e => st.setEnv a { e with values := alistInsert e.values name v }
  | none => st

/-- src/environment.rs `Environment::get`: look the name up in this
environment, else recurse into the enclosing one, else report
"Undefined variable".  The recursion is bounded by `gas`; enclosing
addresses strictly decrease (a parent is always allocated before its
child), so `st.envs.length + 1` gas always suffices. -/
def envGetGas : Nat → Interp → Addr → Token → Res Object
  | 0, _, _, _ => .out
  | gas + 1, st, a, name =>
    match st.lookupEnv a with
    | none => .panic "dangling environment handle"
    | some e =>
      match alistGet e.values name.lexeme with
      | some v => .ok v
      | none =>
        match e.enclosing with
        | some p => envGetGas gas st p name
        | none =>
            .err (.Runtime name.line
              ("Undefined variable '" ++ name.lexeme ++ "'."))

/-- `Environment::get` through a handle, with always-sufficient gas. -/
def Interp.envGet (st : Interp) (a : Addr) (name : Token) : Res Object :=
  envGetGas (st.envs.length + 1) st a name

/-- src/environment.rs `Environment::assign`: overwrite the innermost
existing binding, walking the chain; "Undefined variable" if absent
everywhere. -/
def envAssignGas : Nat → Interp → Addr → Token → Object → Interp × Res Unit
  | 0, st, _, _, _ => (st, .out)
  | gas + 1, st, a, name, value =>
    match st.lookupEnv a with
    | none => (st, .panic "dangling environment handle")
    | some e =>
      match alistUpdate e.values name.lexeme value with
      | some values2 => (st.setEnv a { e with values := values2 }, .ok ())
      | none =>
        match e.enclosing with
        | some p => envAssignGas gas st p name value
        | none =>
            (st, .err (.Runtime name.line
              ("Undefined variable '" ++ name.lexeme ++ "'.")))

/-- `Environment::assign` through a handle, with always-sufficient gas. -/
def Interp.envAssign (st : Interp) (a : Addr) (name : Token) (value : Object) :
    Interp × Res Unit :=
  envAssignGas (st.envs.length + 1) st a name value

/-- The loop of src/environment.rs `Environment::ancestor`:
`ancestor` starts as the enclosing handle and is re-dereferenced
`distance - 1` times, each time through `Option::unwrap` (a `panic` when
the chain is too short), and the final `unwrap` produces the result. -/
def ancestorSteps : Interp → Nat → Option Addr → Res Addr
  | _, 0, none => .panic "called Option::unwrap on a None value"
  | _, 0, some a => .ok a
  | _, _ + 1, none => .panic "called Option::unwrap on a None value"
  | st, k + 1, some a =>
    match st.lookupEnv a with
    | none => .panic "dangling environment handle"
    | some e => ancestorSteps st k e.enclosing

/-- src/environment.rs `Environment::ancestor`: asserts `distance >= 1`,
then walks `distance` parent hops from `a`. -/
def Interp.ancestor (st : Interp) (a : Addr) (distance : Nat) : Res Addr :=
  match distance with
  | 0 => .panic "param distance should >= 1"
  | d + 1 =>
    match st.lookupEnv a with
    | none => .panic "dangling environment handle"
    | some e => ancestorSteps st d e.enclosing

/-- src/environment.rs `Environment::get_at`: at distance 0 read this
environment's own map (`unwrap` panics when the name is missing),
otherwise read the map of `ancestor(distance)`. -/
def Interp.getAt (st : Interp) (a : Addr) (distance : Nat) (name : String) :
    Res Object :=
  match distance with
  | 0 =>
    match st.lookupEnv a with
    | none => .panic "dangling environment handle"
    | some e =>
      match alistGet e.values name with
      | some v => .ok v
      | none => .panic "called Option::unwrap on a None value"
  | _ =>
    match st.ancestor a distance with
    | .ok b =>
      match st.lookupEnv b with
      | none => .panic "dangling environment handle"
      | some e =>
        match alistGet e.values name with
        | some v => .ok v
        | none => .panic "called Option::unwrap on a None value"
    | .err e => .err e
    | .panic p => .panic p
    | .out => .out

/-- src/environment.rs `Environment::assign_at`: write through
`get_mut(..).unwrap()` at distance 0, else at `ancestor(distance)`;
the `unwrap` panics when the name is not already bound there. -/
def Interp.assignAt (st : Interp) (a : Addr) (distance : Nat) (name : Token)
    (value : Object) : Interp × Res Unit :=
  match distance with
  | 0 =>
    match st.lookupEnv a with
    | none => (st, .panic "dangling environment handle")
    | some e =>
      match alistUpdate e.values name.lexeme value with
      | some values2 => (st.setEnv a { e with values := values2 }, .ok ())
      | none => (st, .panic "called Option::unwrap on a None value")
  | _ =>
    match st.ancestor a distance with
    | .ok b =>
      match st.lookupEnv b with
      | none => (st, .panic "dangling environment handle")
      | some e =>
        match alistUpdate e.values name.lexeme value with
        | some values2 => (st.setEnv b { e with values := values2 }, .ok ())
        | none => (st, .panic "called Option::unwrap on a None value")
    | .err e => (st, .err e)
    | .panic p => (st, .panic p)
    | .out => (st, .out)

/-- src/interpreter.rs `Interpreter::is_truthy`: only `None` (nil) and
`Bool false` are falsy. -/
def is_truthy : Object → Bool
  | .None => false
  | .Bool v => v
  | _ => true

/-- The literal of a `LiteralExpr` as a runtime value
(src/interpreter.rs `visit_literal_expr` clones the literal). -/
def objOfLit : TokenLiteral → Object
  | .None => .None
  | .Bool b => .Bool b
  | .String s => .String s
  | .Number n => .Number n

/-- The host `Display` for numbers used by `format!` in error messages:
integral values print without a fractional part.  (The exact digits of
non-integral values are irrelevant to every property below; only the
surrounding message text matters.) -/
def numToString (n : Rat) : String :=
  if n.den = 1 then toString n.num else toString n.num ++ "/" ++ toString n.den

/-- src/lox_class.rs `LoxClass::find_method`: own map first, then the
superclass chain. -/
def LoxClass.find_method : LoxClass → String → Option LoxFunction
  | .mk _ superclass methods, name =>
    match alistGet methods name with
    | some m => some m
    | none =>
      match superclass with
      | some sup => sup.find_method name
      | none => none

/-- src/lox_function.rs `LoxFunction::arity`. -/
def LoxFunction.arity (f : LoxFunction) : Nat :=
  f.declaration.params.length

/-- src/lox_class.rs `LoxClass::arity`: the arity of `init` when present,
else 0.  (`visit_call_expr` never consults it.) -/
def LoxClass.arity (c : LoxClass) : Nat :=
  match c.find_method "init" with
  | some exist_init => exist_init.arity
  | none => 0

/-- src/object.rs `NativeFunction::arity`: only `clock` exists, with
arity 0; any other name is `unreachable!`.  (`visit_call_expr` never
consults it.) -/
def NativeFunction.arity (nf : NativeFunction) : Res Nat :=
  match nf.name with
  | "clock" => .ok 0
  | _ => .panic "Invalid native fn arity."

/-- src/lox_function.rs `LoxFunction::bind`: a fresh environment holding
only `this ↦ instance`, parented to the function's closure, and a copy of
the function closing over it. -/
def Interp.bind (st : Interp) (f : LoxFunction) (instance_addr : Addr) :
    Interp × LoxFunction :=
  let (st1, env) := st.allocEnv (some f.closure)
      [("this", Object.Instance instance_addr)]
  (st1, { f with closure := env })

/-! Structural equality of the AST, as `#[derive(PartialEq)]` generates it
for `Expr`, `Stmt`, `FunctionDeclaration` and `ClassDeclaration` (field
by field, `&&`-short-circuited, variants of different kinds unequal). -/

mutual
def exprBeq : Expr → Expr → Bool
  | .Assign n v d, .Assign n2 v2 d2 => n == n2 && exprBeq v v2 && d == d2
  | .Binary l o r, .Binary l2 o2 r2 => exprBeq l l2 && o == o2 && exprBeq r r2
  | .Call c p a, .Call c2 p2 a2 => exprBeq c c2 && p == p2 && exprListBeq a a2
  | .Get o n, .Get o2 n2 => exprBeq o o2 && n == n2
  | .Grouping e, .Grouping e2 => exprBeq e e2
  | .Literal l, .Literal l2 => l == l2
  | .Logical l o r, .Logical l2 o2 r2 => exprBeq l l2 && o == o2 && exprBeq r r2
  | .Set o n v, .Set o2 n2 v2 => exprBeq o o2 && n == n2 && exprBeq v v2
  | .Super k m d, .Super k2 m2 d2 => k == k2 && m == m2 && d == d2
  | .This k d, .This k2 d2 => k == k2 && d == d2
  | .Unary o r, .Unary o2 r2 => o == o2 && exprBeq r r2
  | .Variable v, .Variable v2 => v == v2
  | _, _ => false

def exprListBeq : List Expr → List Expr → Bool
  | [], [] => true
  | e :: es, f :: fs => exprBeq e f && exprListBeq es fs
  | _, _ => false
end

def optExprBeq : Option Expr → Option Expr → Bool
  | none, none => true
  | some e, some f => exprBeq e f
  | _, _ => false

mutual
def stmtBeq : Stmt → Stmt → Bool
  | .Block ss, .Block ss2 => stmtListBeq ss ss2
  | .ClassDeclaration cd, .ClassDeclaration cd2 => classDeclBeq cd cd2
  | .Expression e, .Expression e2 => exprBeq e e2
  | .FunctionDeclaration fd, .FunctionDeclaration fd2 => funcDeclBeq fd fd2
  | .If c t e, .If c2 t2 e2 =>
      exprBeq c c2 && stmtBeq t t2 && optStmtBeq e e2
  | .While c b, .While c2 b2 => exprBeq c c2 && stmtBeq b b2
  | .Print e, .Print e2 => exprBeq e e2
  | .Return k v, .Return k2 v2 => k == k2 && optExprBeq v v2
  | .Var n i, .Var n2 i2 => n == n2 && optExprBeq i i2
  | _, _ => false

def stmtListBeq : List Stmt → List Stmt → Bool
  | [], [] => true
  | s :: ss, t :: ts => stmtBeq s t && stmtListBeq ss ts
  | _, _ => false

def optStmtBeq : Option Stmt → Option Stmt → Bool
  | none, none => true
  | some s, some t => stmtBeq s t
  | _, _ => false

def funcDeclBeq : FunctionDeclaration → FunctionDeclaration → Bool
  | .mk n p b, .mk n2 p2 b2 => n == n2 && p == p2 && stmtListBeq b b2

def funcDeclListBeq : List FunctionDeclaration → List FunctionDeclaration → Bool
  | [], [] => true
  | f :: fs, g :: gs => funcDeclBeq f g && funcDeclListBeq fs gs
  | _, _ => false

def classDeclBeq : ClassDeclaration → ClassDeclaration → Bool
  | .mk n s m, .mk n2 s2 m2 => n == n2 && s == s2 && funcDeclListBeq m m2
end

/-- Short-circuiting `&&` over `Res Bool`, the shape derived `PartialEq`
comparisons take in this model (the right side only runs when the left
compared equal). -/
def resAnd (r : Res Bool) (k : Unit → Res Bool) : Res Bool :=
  match r with
  | .ok true => k ()
  | .ok false => .ok false
  | .err e => .err e
  | .panic p => .panic p
  | .out => .out

/-! The model of `==` on runtime values: `#[derive(PartialEq)]` on
`Object` (src/object.rs), `LoxFunction`, `LoxClass`, `LoxInstance` and
`Environment`.  An `Rc<RefCell<T>>` compares by comparing the borrowed
contents (`Environment` and `LoxInstance` contain `f64`, so `Rc` has no
`Eq`-based pointer shortcut), hence the comparison dereferences the
stores and can fail to terminate on values that reach themselves through
a closure; the fuel models that divergence as `.out` for every fuel. -/

mutual
def objEq : Nat → Interp → Object → Object → Res Bool
  | 0, _, _, _ => .out
  | fuel + 1, st, a, b =>
    match a, b with
    | .None, .None => .ok true
    | .Bool x, .Bool y => .ok (x == y)
    | .String x, .String y => .ok (x == y)
    | .Number x, .Number y => .ok (decide (x = y))
    | .Function f, .Function g => funcEq fuel st f g
    | .NativeFunction x, .NativeFunction y => .ok (x.name == y.name)
    | .Class c, .Class d => classEq fuel st c d
    | .Instance i, .Instance j =>
      match st.instances.get? i, st.instances.get? j with
      | some x, some y => instEq fuel st x y
      | _, _ => .panic "dangling instance handle"
    | _, _ => .ok false

def funcEq : Nat → Interp → LoxFunction → LoxFunction → Res Bool
  | 0, _, _, _ => .out
  | fuel + 1, st, f, g =>
    resAnd (.ok (funcDeclBeq f.declaration g.declaration)) fun _ =>
      resAnd (envAddrEq fuel st f.closure g.closure) fun _ =>
        .ok (f.is_initializer == g.is_initializer)

def envAddrEq : Nat → Interp → Addr → Addr → Res Bool
  | 0, _, _, _ => .out
  | fuel + 1, st, a, b =>
    match st.lookupEnv a, st.lookupEnv b with
    | some e1, some e2 =>
      resAnd (envOptEq fuel st e1.enclosing e2.enclosing) fun _ =>
        valuesEq fuel st e1.values e2.values
    | _, _ => .panic "dangling environment handle"

def envOptEq : Nat → Interp → Option Addr → Option Addr → Res Bool
  | 0, _, _, _ => .out
  | fuel + 1, st, o1, o2 =>
    match o1, o2 with
    | none, none => .ok true
    | some a, some b => envAddrEq fuel st a b
    | _, _ => .ok false

def classEq : Nat → Interp → LoxClass → LoxClass → Res Bool
  | 0, _, _, _ => .out
  | fuel + 1, st, .mk n s m, .mk n2 s2 m2 =>
    resAnd (.ok (n == n2)) fun _ =>
      resAnd (classOptEq fuel st s s2) fun _ =>
        methodsEq fuel st m m2

def classOptEq : Nat → Interp → Option LoxClass → Option LoxClass → Res Bool
  | 0, _, _, _ => .out
  | fuel + 1, st, o1, o2 =>
    match o1, o2 with
    | none, none => .ok true
    | some c, some d => classEq fuel st c d
    | _, _ => .ok false

def methodsEq : Nat → Interp → List (String × LoxFunction) →
    List (String × LoxFunction) → Res Bool
  | 0, _, _, _ => .out
  | fuel + 1, st, xs, ys =>
    if xs.length = ys.length then methodsAll fuel st xs ys else .ok false

def methodsAll : Nat → Interp → List (String × LoxFunction) →
    List (String × LoxFunction) → Res Bool
  | 0, _, _, _ => .out
  | _ + 1, _, [], _ => .ok true
  | fuel + 1, st, (k, v) :: rest, ys =>
    match alistGet ys k with
    | none => .ok false
    | some w => resAnd (funcEq fuel st v w) fun _ => methodsAll fuel st rest ys

def valuesEq : Nat → Interp → List (String × Object) →
    List (String × Object) → Res Bool
  | 0, _, _, _ => .out
  | fuel + 1, st, xs, ys =>
    if xs.length = ys.length then valuesAll fuel st xs ys else .ok false

def valuesAll : Nat → Interp → List (String × Object) →
    List (String × Object) → Res Bool
  | 0, _, _, _ => .out
  | _ + 1, _, [], _ => .ok true
  | fuel + 1, st, (k, v) :: rest, ys =>
    match alistGet ys k with
    | none => .ok false
    | some w => resAnd (objEq fuel st v w) fun _ => valuesAll fuel st rest ys

def instEq : Nat → Interp → LoxInstance → LoxInstance → Res Bool
  | 0, _, _, _ => .out
  | fuel + 1, st, i, j =>
    resAnd (classEq fuel st i.klass j.klass) fun _ =>
      valuesEq fuel st i.fields j.fields
end

/-- src/interpreter.rs `Interpreter::look_up_variable`: with a recorded
distance, `get_at` from the current environment; without one, a dynamic
`get` on globals. -/
def lookUpVariable (st : Interp) (name : Token) (distance : Option Nat) :
    Res Object :=
  match distance with
  | some d => st.getAt st.environment d name.lexeme
  | none => st.envGet st.globals name

/-- src/interpreter.rs `Interpreter::number_err`. -/
def number_err (line : Nat) : Res Object :=
  .err (.Runtime line "Operand must be a number.")

/-- src/lox_instance.rs `LoxInstance::get`: fields shadow methods; a
found method is bound to the instance; otherwise "Undefined property". -/
def instanceGet (st : Interp) (a : Addr) (name : Token) :
    Interp × Res Object :=
  match st.instances.get? a with
  | none => (st, .panic "dangling instance handle")
  | some inst =>
    match alistGet inst.fields name.lexeme with
    | some existing_property => (st, .ok existing_property)
    | none =>
      match inst.klass.find_method name.lexeme with
      | some method =>
        let (st1, bound) := st.bind method a
        (st1, .ok (.Function bound))
      | none =>
          (st, .err (.Runtime name.line
            ("Undefined property " ++ name.lexeme ++ ".")))

/-- src/lox_instance.rs `LoxInstance::set`, through the shared handle. -/
def Interp.instanceSet (st : Interp) (a : Addr) (name : Token) (v : Object) :
    Interp :=
  match st.instances.get? a with
  | some inst =>
    let inst2 := { inst with fields := alistInsert inst.fields name.lexeme v }
    { st with instances := st.instances.set a inst2 }
  | none => st

/-- src/object.rs `NativeFunction::call`: `clock` returns the wall clock
(modelled by `Interp.clock_time`); other names are `unreachable!`.
No arity check happens here. -/
def nativeFunctionCall (st : Interp) (nf : NativeFunction)
    (_arguments : List Object) : Interp × Res Object :=
  match nf.name with
  | "clock" => (st, .ok (.Number st.clock_time))
  | _ => (st, .panic "Invalid native fn call.")

/-- The parameter-binding loop of src/lox_function.rs `LoxFunction::call`:
`for i in 0..params.len() { define(params[i], arguments[i]) }`.  Indexing
`arguments[i]` out of bounds is a Rust panic; surplus arguments are
silently ignored because the loop runs over parameter indices. -/
def bindParams : Interp → Addr → List Token → List Object → Interp × Res Unit
  | st, _, [], _ => (st, .ok ())
  | st, _, _ :: _, [] => (st, .panic "index out of bounds")
  | st, env, p :: ps, a :: rest =>
      bindParams (st.defineIn env p.lexeme a) env ps rest

/-- The operator dispatch of src/interpreter.rs `visit_binary_expr`, after
both operands are evaluated.  `==`/`!=` use the derived `PartialEq`
(`objEq`); the arithmetic and comparison operators demand numbers;
`/` guards against a zero divisor; `+` also accepts two strings. -/
def binaryOp (fuel : Nat) (st : Interp) (operator : Token)
    (left right : Object) : Res Object :=
  match operator.token_type with
  | .EqualEqual =>
    match objEq fuel st left right with
    | .ok b => .ok (.Bool b)
    | .err e => .err e
    | .panic p => .panic p
    | .out => .out
  | .BangEqual =>
    match objEq fuel st left right with
    | .ok b => .ok (.Bool (!b))
    | .err e => .err e
    | .panic p => .panic p
    | .out => .out
  | .Greater =>
    match left, right with
    | .Number l, .Number r => .ok (.Bool (decide (l > r)))
    | _, _ => number_err operator.line
  | .GreaterEqual =>
    match left, right with
    | .Number l, .Number r => .ok (.Bool (decide (l ≥ r)))
    | _, _ => number_err operator.line
  | .Less =>
    match left, right with
    | .Number l, .Number r => .ok (.Bool (decide (l < r)))
    | _, _ => number_err operator.line
  | .LessEqual =>
    match left, right with
    | .Number l, .Number r => .ok (.Bool (decide (l ≤ r)))
    | _, _ => number_err operator.line
  | .Minus =>
    match left, right with
    | .Number l, .Number r => .ok (.Number (l - r))
    | _, _ => number_err operator.line
  | .Slash =>
    match left, right with
    | .Number l, .Number r =>
      if r ≠ 0 then .ok (.Number (l / r))
      else
        .err (.Runtime operator.line
          ("Attempt to divide `" ++ numToString l ++ "` by zero."))
    | _, _ => number_err operator.line
  | .Star =>
    match left, right with
    | .Number l, .Number r => .ok (.Number (l * r))
    | _, _ => number_err operator.line
  | .Plus =>
    match left, right with
    | .Number l, .Number r => .ok (.Number (l + r))
    | .String l, .String r => .ok (.String (l ++ r))
    | _, _ =>
        .err (.Runtime operator.line
          "Operands must be two numbers or two strings.")
  | _ => .panic "Impossible operator for binary expr."

/-- src/interpreter.rs `visit_class_declaration_stmt`, after the
superclass value (if any) is settled: restore the saved environment by
stepping to the enclosing of the `super` environment. -/
def classDeclRestore (st : Interp) (hadSuper : Bool) : Interp × Res Unit :=
  if hadSuper then
    match st.lookupEnv st.environment with
    | none => (st, .panic "dangling environment handle")
    | some e =>
      match e.enclosing with
      | none => (st, .panic "called Option::unwrap on a None value")
      | some o => ({ st with environment := o }, .ok ())
  else (st, .ok ())

/-- The method-table construction loop of `visit_class_declaration_stmt`:
each method closes over the current (possibly `super`-augmented)
environment, with the initializer flag set iff it is named `init`. -/
def buildMethods (envAddr : Addr) :
    List FunctionDeclaration → List (String × LoxFunction) →
    List (String × LoxFunction)
  | [], acc => acc
  | m :: rest, acc =>
      buildMethods envAddr rest
        (alistInsert acc m.name.lexeme
          ⟨m, envAddr, m.name.lexeme == "init"⟩)

/-- The tail of src/interpreter.rs `visit_class_declaration_stmt` once the
superclass is evaluated: placeholder-define the class name, optionally
push a `super` environment, build the methods, pop the `super`
environment, and `assign` the finished class over the placeholder. -/
def classDeclFinish (st : Interp) (cd : ClassDeclaration)
    (superclass : Option LoxClass) (superclass_obj : Object) :
    Interp × Res Unit :=
  let st1 := st.defineIn st.environment cd.name.lexeme Object.None
  let st2 :=
    if cd.superclass.isSome then
      let (stA, env) := st1.allocEnv (some st1.environment) []
      let stB := { stA with environment := env }
      stB.defineIn env "super" superclass_obj
    else st1
  let methods := buildMethods st2.environment cd.methods []
  let lox_class := LoxClass.mk cd.name.lexeme superclass methods
  match classDeclRestore st2 cd.superclass.isSome with
  | (st3, .ok ()) =>
      st3.envAssign st3.environment cd.name (Object.Class lox_class)
  | other => other

/-- src/interpreter.rs `visit_class_declaration_stmt`: evaluate the
superclass variable first ("Superclass must be a class." when it is not a
class), then run `classDeclFinish`. -/
def visitClassDeclarationStmt (st : Interp) (cd : ClassDeclaration) :
    Interp × Res Unit :=
  match cd.superclass with
  | some exist_superclass =>
    match lookUpVariable st exist_superclass.name exist_superclass.distance with
    | .ok (Object.Class lox_class) =>
        classDeclFinish st cd (some lox_class) (Object.Class lox_class)
    | .ok _ =>
        (st, .err (.Runtime exist_superclass.name.line
          "Superclass must be a class."))
    | .err e => (st, .err e)
    | .panic p => (st, .panic p)
    | .out => (st, .out)
  | none => classDeclFinish st cd none Object.None

/-! The tree walker (src/interpreter.rs `evaluate`/`execute` and the
callable protocol).  All recursion is counted by a fuel parameter that
every mutual call decrements; `Res.out` signals exhausted fuel. -/

mutual
/-- src/interpreter.rs `Interpreter::evaluate` with the `visit_*_expr`
methods inlined at their dispatch sites. -/
def evaluate : Nat → Interp → Expr → Interp × Res Object
  | 0, st, _ => (st, .out)
  | fuel + 1, st, e =>
    match e with
    | .Assign name value distance =>
      -- visit_assign_expr
      match evaluate fuel st value with
      | (st1, .ok v) =>
        match distance with
        | some d =>
          match st1.assignAt st1.environment d name v with
          | (st2, .ok ()) => (st2, .ok v)
          | (st2, .err er) => (st2, .err er)
          | (st2, .panic p) => (st2, .panic p)
          | (st2, .out) => (st2, .out)
        | none =>
          match st1.envAssign st1.globals name v with
          | (st2, .ok ()) => (st2, .ok v)
          | (st2, .err er) => (st2, .err er)
          | (st2, .panic p) => (st2, .panic p)
          | (st2, .out) => (st2, .out)
      | other => other
    | .Binary left operator right =>
      -- visit_binary_expr
      match evaluate fuel st left with
      | (st1, .ok l) =>
        match evaluate fuel st1 right with
        | (st2, .ok r) => (st2, binaryOp fuel st2 operator l r)
        | other => other
      | other => other
    | .Call callee paren arguments =>
      -- visit_call_expr
      match evaluate fuel st callee with
      | (st1, .ok calleeValue) =>
        match evalArgs fuel st1 arguments with
        | (st2, .ok args) =>
          match calleeValue with
          | .Function functionValue =>
            if args.length ≠ functionValue.arity then
              (st2, .err (.Runtime paren.line
                ("Expected " ++ toString functionValue.arity ++
                 " arguments but got " ++ toString args.length ++ ".")))
            else loxFunctionCall fuel st2 functionValue args
          | .NativeFunction native_function =>
              nativeFunctionCall st2 native_function args
          | .Class cl => loxClassCall fuel st2 cl args
          | _ =>
              (st2, .err (.Runtime paren.line
                "Can only call functions and classes."))
        | (st2, .err er) => (st2, .err er)
        | (st2, .panic p) => (st2, .panic p)
        | (st2, .out) => (st2, .out)
      | other => other
    | .Get object name =>
      -- visit_get_expr
      match evaluate fuel st object with
      | (st1, .ok (.Instance a)) => instanceGet st1 a name
      | (st1, .ok _) =>
          (st1, .err (.Runtime name.line "Only instances have properties."))
      | other => other
    | .Grouping expression => evaluate fuel st expression
    | .Literal literal => (st, .ok (objOfLit literal))
    | .Logical left operator right =>
      -- visit_logical_expr: Or short-circuits on truthy left, anything
      -- else (And) short-circuits on falsy left
      match evaluate fuel st left with
      | (st1, .ok l) =>
        if operator.token_type = TokenType.Or then
          if is_truthy l then (st1, .ok l) else evaluate fuel st1 right
        else
          if !is_truthy l then (st1, .ok l) else evaluate fuel st1 right
      | other => other
    | .Set object name value =>
      -- visit_set_expr: the value is only evaluated when the target is
      -- an instance
      match evaluate fuel st object with
      | (st1, .ok (.Instance a)) =>
        match evaluate fuel st1 value with
        | (st2, .ok v) => (st2.instanceSet a name v, .ok v)
        | other => other
      | (st1, .ok _) =>
          (st1, .err (.Runtime name.line "Only instances have fields."))
      | other => other
    | .Super _keyword method distance =>
      -- visit_super_expr
      match distance with
      | none => (st, .panic "called Option::unwrap on a None value")
      | some d =>
        match st.getAt st.environment d "super" with
        | .ok superclassObj =>
          if d = 0 then (st, .panic "attempt to subtract with overflow")
          else
            match st.getAt st.environment (d - 1) "this" with
            | .ok object =>
              match superclassObj with
              | .Class lox_class =>
                match lox_class.find_method method.lexeme with
                | none =>
                    (st, .err (.Runtime method.line
                      ("Undefined property '" ++ method.lexeme ++ "'.")))
                | some m =>
                  match object with
                  | .Instance a =>
                    let (st1, bound) := st.bind m a
                    (st1, .ok (.Function bound))
                  | _ => (st, .panic "this is not instance, WTF?")
              | _ =>
                  (st, .panic
                    "superclass is not class, visit_class_declaration_stmt bug?")
            | .err er => (st, .err er)
            | .panic p => (st, .panic p)
            | .out => (st, .out)
        | .err er => (st, .err er)
        | .panic p => (st, .panic p)
        | .out => (st, .out)
    | .This keyword distance => (st, lookUpVariable st keyword distance)
    | .Unary operator right =>
      -- visit_unary_expr
      match evaluate fuel st right with
      | (st1, .ok r) =>
        match operator.token_type with
        | .Bang => (st1, .ok (.Bool (!is_truthy r)))
        | .Minus =>
          match r with
          | .Number v => (st1, .ok (.Number (-v)))
          | _ => (st1, number_err operator.line)
        | _ => (st1, .panic "Impossible operator for unary expr.")
      | other => other
    | .Variable v => (st, lookUpVariable st v.name v.distance)

/-- The argument-evaluation loop of `visit_call_expr` (left to right,
first error stops). -/
def evalArgs : Nat → Interp → List Expr → Interp × Res (List Object)
  | 0, st, _ => (st, .out)
  | _ + 1, st, [] => (st, .ok [])
  | fuel + 1, st, e :: rest =>
    match evaluate fuel st e with
    | (st1, .ok v) =>
      match evalArgs fuel st1 rest with
      | (st2, .ok vs) => (st2, .ok (v :: vs))
      | (st2, .err er) => (st2, .err er)
      | (st2, .panic p) => (st2, .panic p)
      | (st2, .out) => (st2, .out)
    | (st1, .err er) => (st1, .err er)
    | (st1, .panic p) => (st1, .panic p)
    | (st1, .out) => (st1, .out)

/-- src/interpreter.rs `Interpreter::execute` with the `visit_*_stmt`
methods inlined at their dispatch sites. -/
def execute : Nat → Interp → Stmt → Interp × Res Unit
  | 0, st, _ => (st, .out)
  | fuel + 1, st, s =>
    match s with
    | .Block statements =>
      -- visit_block_stmt: a fresh environment whose parent is the
      -- current environment
      let (st1, block_env) := st.allocEnv (some st.environment) []
      executeBlock fuel st1 statements block_env
    | .ClassDeclaration class_declaration =>
        visitClassDeclarationStmt st class_declaration
    | .Expression expression =>
      match evaluate fuel st expression with
      | (st1, .ok _) => (st1, .ok ())
      | (st1, .err er) => (st1, .err er)
      | (st1, .panic p) => (st1, .panic p)
      | (st1, .out) => (st1, .out)
    | .If condition then_branch else_branch =>
      match evaluate fuel st condition with
      | (st1, .ok c) =>
        if is_truthy c then execute fuel st1 then_branch
        else
          match else_branch with
          | some exist_else_branch => execute fuel st1 exist_else_branch
          | none => (st1, .ok ())
      | (st1, .err er) => (st1, .err er)
      | (st1, .panic p) => (st1, .panic p)
      | (st1, .out) => (st1, .out)
    | .While condition body =>
      match evaluate fuel st condition with
      | (st1, .ok c) =>
        if is_truthy c then
          match execute fuel st1 body with
          | (st2, .ok ()) => execute fuel st2 (.While condition body)
          | other => other
        else (st1, .ok ())
      | (st1, .err er) => (st1, .err er)
      | (st1, .panic p) => (st1, .panic p)
      | (st1, .out) => (st1, .out)
    | .Print expression =>
      -- stdout is not modelled; the evaluated value is discarded
      match evaluate fuel st expression with
      | (st1, .ok _) => (st1, .ok ())
      | (st1, .err er) => (st1, .err er)
      | (st1, .panic p) => (st1, .panic p)
      | (st1, .out) => (st1, .out)
    | .Return _keyword value =>
      -- visit_return_stmt: the return signal travels as an error value
      match value with
      | some expr =>
        match evaluate fuel st expr with
        | (st1, .ok v) => (st1, .err (.RuntimeReturn v))
        | (st1, .err er) => (st1, .err er)
        | (st1, .panic p) => (st1, .panic p)
        | (st1, .out) => (st1, .out)
      | none => (st, .err (.RuntimeReturn .None))
    | .Var name initializer =>
      -- visit_var_stmt: evaluate the initializer first, then define
      match initializer with
      | some expr =>
        match evaluate fuel st expr with
        | (st1, .ok v) =>
            (st1.defineIn st1.environment name.lexeme v, .ok ())
        | (st1, .err er) => (st1, .err er)
        | (st1, .panic p) => (st1, .panic p)
        | (st1, .out) => (st1, .out)
      | none => (st.defineIn st.environment name.lexeme .None, .ok ())
    | .FunctionDeclaration function_declaration =>
      -- visit_function_declaration_stmt: close over the current
      -- environment, then define the name in it
      let functionValue : LoxFunction :=
        ⟨function_declaration, st.environment, false⟩
      (st.defineIn st.environment function_declaration.name.lexeme
        (.Function functionValue), .ok ())

/-- The `try_for_each` over the statements of a block
(src/interpreter.rs `execute_block`). -/
def execStmts : Nat → Interp → List Stmt → Interp × Res Unit
  | 0, st, _ => (st, .out)
  | _ + 1, st, [] => (st, .ok ())
  | fuel + 1, st, s :: rest =>
    match execute fuel st s with
    | (st1, .ok ()) => execStmts fuel st1 rest
    | other => other

/-- src/interpreter.rs `Interpreter::execute_block`: swap the current
environment for the given one, run the statements, restore the saved
environment, and pass the loop's outcome through. -/
def executeBlock : Nat → Interp → List Stmt → Addr → Interp × Res Unit
  | 0, st, _, _ => (st, .out)
  | fuel + 1, st, stmts, environment =>
    let previous := st.environment
    let (st1, ret) := execStmts fuel { st with environment := environment } stmts
    ({ st1 with environment := previous }, ret)

/-- src/lox_function.rs `LoxFunction::call`: fresh environment under the
closure, bind parameters, run the body; a `RuntimeReturn` signal is
caught here; an initializer answers with `this` from its closure at
distance 0 on both exits. -/
def loxFunctionCall : Nat → Interp → LoxFunction → List Object →
    Interp × Res Object
  | 0, st, _, _ => (st, .out)
  | fuel + 1, st, f, arguments =>
    let (st1, env) := st.allocEnv (some f.closure) []
    match bindParams st1 env f.declaration.params arguments with
    | (st2, .ok ()) =>
      match executeBlock fuel st2 f.declaration.body env with
      | (st3, .err (.RuntimeReturn ret_value)) =>
        if f.is_initializer then (st3, st3.getAt f.closure 0 "this")
        else (st3, .ok ret_value)
      | (st3, .err other) => (st3, .err other)
      | (st3, .ok ()) =>
        if f.is_initializer then (st3, st3.getAt f.closure 0 "this")
        else (st3, .ok .None)
      | (st3, .panic p) => (st3, .panic p)
      | (st3, .out) => (st3, .out)
    | (st2, .err er) => (st2, .err er)
    | (st2, .panic p) => (st2, .panic p)
    | (st2, .out) => (st2, .out)

/-- src/lox_class.rs `LoxClass::call`: allocate the instance, run a bound
`init` when the class has one (its value is discarded, its error
propagates), and answer with the new instance. -/
def loxClassCall : Nat → Interp → LoxClass → List Object →
    Interp × Res Object
  | 0, st, _, _ => (st, .out)
  | fuel + 1, st, c, arguments =>
    let instanceAddr := st.instances.length
    let st1 := { st with instances := st.instances ++ [⟨c, []⟩] }
    match c.find_method "init" with
    | some exist_init =>
      let (st2, bound) := st1.bind exist_init instanceAddr
      match loxFunctionCall fuel st2 bound arguments with
      | (st3, .ok _) => (st3, .ok (.Instance instanceAddr))
      | (st3, .err er) => (st3, .err er)
      | (st3, .panic p) => (st3, .panic p)
      | (st3, .out) => (st3, .out)
    | none => (st1, .ok (.Instance instanceAddr))
end

/-- src/interpreter.rs `Interpreter::new`: globals hold the native
`clock`; the current environment starts as globals. -/
def mkInterpreter (clock_time : Rat) : Interp :=
  { had_runtime_error := false
    environment := 0
    globals := 0
    envs := [⟨none, [("clock", Object.NativeFunction ⟨"clock"⟩)]⟩]
    instances := []
    clock_time := clock_time }

/-- src/interpreter.rs `Interpreter::interpret`: run the statements in
order; a `LoxErr` is reported (collected here) and sets
`had_runtime_error`, then the loop continues; a panic aborts. -/
def interpret : Nat → Interp → List Stmt → Interp × List LoxErr × Res Unit
  | 0, st, _ => (st, [], .out)
  | _ + 1, st, [] => (st, [], .ok ())
  | fuel + 1, st, s :: rest =>
    match execute fuel st s with
    | (st1, .ok ()) => interpret fuel st1 rest
    | (st1, .err e) =>
      let st2 := { st1 with had_runtime_error := true }
      match interpret fuel st2 rest with
      | (st3, errs, r) => (st3, e :: errs, r)
    | (st1, .panic p) => (st1, [], .panic p)
    | (st1, .out) => (st1, [], .out)

/-! The resolver (src/resolver.rs).  The scope stack models the Rust
`Vec<HashMap<String, bool>>` with the list head as the innermost scope
(the vector's top); the in-place `set_distance` mutation becomes
returning the annotated node. -/

/-- src/resolver.rs `FunctionType`. -/
inductive FunctionType where
  | None | Function | Initializer | Method
deriving DecidableEq, Repr

/-- src/resolver.rs `ClassType`. -/
inductive ClassType where
  | None | Class | SubClass
deriving DecidableEq, Repr

/-- src/resolver.rs `Resolver`.  `errors` collects what the source
prints to stderr (in order). -/
structure Resolver where
  had_resolve_error : Bool
  errors : List LoxErr
  scopes : List (List (String × Bool))
  current_function : FunctionType
  current_class : ClassType

/-- src/resolver.rs `Resolver::new`. -/
def mkResolver : Resolver :=
  { had_resolve_error := false
    errors := []
    scopes := []
    current_function := .None
    current_class := .None }

/-- The scan of src/resolver.rs `Resolver::resolve_local`: the Rust loop
walks indices `i` from `scopes.len() - 1` down to `0` and records
`scopes.len() - 1 - i` for the first hit, i.e. the number of scopes
between the innermost one and the innermost scope containing the name;
with the innermost scope at the head this is the index of the first
containing scope. -/
def resolveLocalScopes : List (List (String × Bool)) → String → Option Nat
  | [], _ => none
  | scope :: rest, name =>
    if alistContains scope name then some 0
    else (resolveLocalScopes rest name).map (· + 1)

/-- src/resolver.rs `Resolver::resolve_local` as a function on the
annotation: when no scope contains the name, `set_distance` is never
called and the node's annotation stays as it was. -/
def Resolver.resolve_local (r : Resolver) (name : String)
    (distance : Option Nat) : Option Nat :=
  match resolveLocalScopes r.scopes name with
  | some d => some d
  | none => distance

/-- src/resolver.rs `Resolver::begin_scope`. -/
def Resolver.begin_scope (r : Resolver) : Resolver :=
  { r with scopes := [] :: r.scopes }

/-- src/resolver.rs `Resolver::end_scope` (`Vec::pop`: a no-op on an
empty stack). -/
def Resolver.end_scope (r : Resolver) : Resolver :=
  { r with scopes := r.scopes.tail }

/-- src/resolver.rs `Resolver::declare`: nothing happens at global scope
(empty stack); re-declaring in the current scope is a resolve error;
otherwise the name is inserted with flag `false`. -/
def Resolver.declare (r : Resolver) (name : Token) : Resolver × Res Unit :=
  match r.scopes with
  | [] => (r, .ok ())
  | scope :: rest =>
    if alistContains scope name.lexeme then
      (r, .err (.Resolve name.line
        "Already variable with this name in this scope."))
    else
      ({ r with scopes := alistInsert scope name.lexeme false :: rest },
       .ok ())

/-- src/resolver.rs `Resolver::define`: mark the name defined in the
current scope (no-op at global scope). -/
def Resolver.define (r : Resolver) (name : Token) : Resolver :=
  match r.scopes with
  | [] => r
  | scope :: rest =>
      { r with scopes := alistInsert scope name.lexeme true :: rest }

/-- `scopes.last_mut().unwrap().insert(key, true)` in
`visit_class_declaration_stmt` (the `super`/`this` bindings). -/
def Resolver.insertTop (r : Resolver) (key : String) : Resolver × Res Unit :=
  match r.scopes with
  | [] => (r, .panic "called Option::unwrap on a None value")
  | scope :: rest =>
      ({ r with scopes := alistInsert scope key true :: rest }, .ok ())

/-- src/resolver.rs `visit_variable_expr`: reading a local inside its own
initializer (innermost flag still `false`) is an error; otherwise the
node is annotated by `resolve_local`. -/
def resolveVariableExpr (r : Resolver) (v : VariableExpr) :
    Resolver × Res VariableExpr :=
  match r.scopes with
  | scope :: _ =>
    if alistGet scope v.name.lexeme = some false then
      (r, .err (.Resolve v.name.line
        "Can't read local variable in its own initializer."))
    else (r, .ok ⟨v.name, r.resolve_local v.name.lexeme v.distance⟩)
  | [] => (r, .ok ⟨v.name, r.resolve_local v.name.lexeme v.distance⟩)

/-- The parameter loop of src/resolver.rs `resolve_function`: declare and
define each parameter; a declare error aborts the loop. -/
def declareParams : Resolver → List Token → Resolver × Res Unit
  | r, [] => (r, .ok ())
  | r, p :: ps =>
    match r.declare p with
    | (r1, .ok ()) => declareParams (r1.define p) ps
    | (r1, .err e) => (r1, .err e)
    | (r1, .panic pc) => (r1, .panic pc)
    | (r1, .out) => (r1, .out)

mutual
/-- src/resolver.rs `Resolver::resolve_expr` with the `visit_*_expr`
methods inlined.  Errors propagate with `?` exactly where the source
propagates them; the returned expression carries the annotations. -/
def resolveExpr : Nat → Resolver → Expr → Resolver × Res Expr
  | 0, r, _ => (r, .out)
  | fuel + 1, r, e =>
    match e with
    | .Assign name value distance =>
      -- visit_assign_expr: resolve the value, then resolve_local the target
      match resolveExpr fuel r value with
      | (r1, .ok value2) =>
          (r1, .ok (.Assign name value2
            (r1.resolve_local name.lexeme distance)))
      | other => other
    | .Binary left operator right =>
      match resolveExpr fuel r left with
      | (r1, .ok left2) =>
        match resolveExpr fuel r1 right with
        | (r2, .ok right2) => (r2, .ok (.Binary left2 operator right2))
        | other => other
      | other => other
    | .Call callee paren arguments =>
      match resolveExpr fuel r callee with
      | (r1, .ok callee2) =>
        match resolveExprList fuel r1 arguments with
        | (r2, .ok arguments2) => (r2, .ok (.Call callee2 paren arguments2))
        | (r2, .err er) => (r2, .err er)
        | (r2, .panic p) => (r2, .panic p)
        | (r2, .out) => (r2, .out)
      | other => other
    | .Get object name =>
      match resolveExpr fuel r object with
      | (r1, .ok object2) => (r1, .ok (.Get object2 name))
      | other => other
    | .Grouping expression =>
      match resolveExpr fuel r expression with
      | (r1, .ok expression2) => (r1, .ok (.Grouping expression2))
      | other => other
    | .Literal literal => (r, .ok (.Literal literal))
    | .Logical left operator right =>
      match resolveExpr fuel r left with
      | (r1, .ok left2) =>
        match resolveExpr fuel r1 right with
        | (r2, .ok right2) => (r2, .ok (.Logical left2 operator right2))
        | other => other
      | other => other
    | .Set object name value =>
      -- visit_set_expr resolves the value first, then the object
      match resolveExpr fuel r value with
      | (r1, .ok value2) =>
        match resolveExpr fuel r1 object with
        | (r2, .ok object2) => (r2, .ok (.Set object2 name value2))
        | other => other
      | other => other
    | .Super keyword method distance =>
      -- visit_super_expr
      if r.current_class = ClassType.None then
        (r, .err (.Resolve keyword.line "Can't use 'super' outside of a class."))
      else if r.current_class ≠ ClassType.SubClass then
        (r, .err (.Resolve keyword.line
          "Can't use 'super' in a class with no superclass."))
      else
        (r, .ok (.Super keyword method
          (r.resolve_local keyword.lexeme distance)))
    | .This keyword distance =>
      -- visit_this_expr
      if r.current_class = ClassType.None then
        (r, .err (.Resolve keyword.line "Can't use 'this' outside of a class."))
      else
        (r, .ok (.This keyword (r.resolve_local keyword.lexeme distance)))
    | .Unary operator right =>
      match resolveExpr fuel r right with
      | (r1, .ok right2) => (r1, .ok (.Unary operator right2))
      | other => other
    | .Variable v =>
      match resolveVariableExpr r v with
      | (r1, .ok v2) => (r1, .ok (.Variable v2))
      | (r1, .err er) => (r1, .err er)
      | (r1, .panic p) => (r1, .panic p)
      | (r1, .out) => (r1, .out)

/-- The argument loop of the resolver's `visit_call_expr` (each argument
resolved with `?`). -/
def resolveExprList : Nat → Resolver → List Expr → Resolver × Res (List Expr)
  | 0, r, _ => (r, .out)
  | _ + 1, r, [] => (r, .ok [])
  | fuel + 1, r, e :: rest =>
    match resolveExpr fuel r e with
    | (r1, .ok e2) =>
      match resolveExprList fuel r1 rest with
      | (r2, .ok es) => (r2, .ok (e2 :: es))
      | (r2, .err er) => (r2, .err er)
      | (r2, .panic p) => (r2, .panic p)
      | (r2, .out) => (r2, .out)
    | (r1, .err er) => (r1, .err er)
    | (r1, .panic p) => (r1, .panic p)
    | (r1, .out) => (r1, .out)

/-- src/resolver.rs `Resolver::resolve_stmt` with the `visit_*_stmt`
methods inlined. -/
def resolveStmt : Nat → Resolver → Stmt → Resolver × Res Stmt
  | 0, r, _ => (r, .out)
  | fuel + 1, r, s =>
    match s with
    | .Block statements =>
      -- visit_block_stmt: push a scope, resolve (errors swallowed per
      -- statement by `resolve`), pop the scope
      match resolveStmtList fuel r.begin_scope statements with
      | (r1, .ok statements2) => (r1.end_scope, .ok (.Block statements2))
      | (r1, .panic p) => (r1, .panic p)
      | (r1, .err er) => (r1, .err er)
      | (r1, .out) => (r1, .out)
    | .ClassDeclaration cd =>
      -- visit_class_declaration_stmt
      let enclosing_class := r.current_class
      let rA := { r with current_class := ClassType.Class }
      match rA.declare cd.name with
      | (rB, .ok ()) =>
        let rC := rB.define cd.name
        match cd.superclass with
        | some exist_superclass =>
          if cd.name.lexeme = exist_superclass.name.lexeme then
            (rC, .err (.Resolve exist_superclass.name.line
              "A class can't inherit from itself."))
          else
            let rD := { rC with current_class := ClassType.SubClass }
            match resolveVariableExpr rD exist_superclass with
            | (rE, .ok superclass2) =>
              match (rE.begin_scope).insertTop "super" with
              | (rF, .ok ()) =>
                resolveClassBody fuel rF cd (some superclass2)
                  enclosing_class
              | (rF, .err er) => (rF, .err er)
              | (rF, .panic p) => (rF, .panic p)
              | (rF, .out) => (rF, .out)
            | (rE, .err er) => (rE, .err er)
            | (rE, .panic p) => (rE, .panic p)
            | (rE, .out) => (rE, .out)
        | none => resolveClassBody fuel rC cd none enclosing_class
      | (rB, .err er) => (rB, .err er)
      | (rB, .panic p) => (rB, .panic p)
      | (rB, .out) => (rB, .out)
    | .Expression expression =>
      match resolveExpr fuel r expression with
      | (r1, .ok expression2) => (r1, .ok (.Expression expression2))
      | (r1, .err er) => (r1, .err er)
      | (r1, .panic p) => (r1, .panic p)
      | (r1, .out) => (r1, .out)
    | .FunctionDeclaration fd =>
      -- visit_function_declaration_stmt: declare+define the name, then
      -- resolve the function with kind Function
      match r.declare fd.name with
      | (r1, .ok ()) =>
        match resolveFunction fuel (r1.define fd.name) fd .Function with
        | (r2, .ok fd2) => (r2, .ok (.FunctionDeclaration fd2))
        | (r2, .err er) => (r2, .err er)
        | (r2, .panic p) => (r2, .panic p)
        | (r2, .out) => (r2, .out)
      | (r1, .err er) => (r1, .err er)
      | (r1, .panic p) => (r1, .panic p)
      | (r1, .out) => (r1, .out)
    | .If condition then_branch else_branch =>
      match resolveExpr fuel r condition with
      | (r1, .ok condition2) =>
        match resolveStmt fuel r1 then_branch with
        | (r2, .ok then2) =>
          match else_branch with
          | some exist_else_branch =>
            match resolveStmt fuel r2 exist_else_branch with
            | (r3, .ok else2) => (r3, .ok (.If condition2 then2 (some else2)))
            | other => other
          | none => (r2, .ok (.If condition2 then2 none))
        | other => other
      | (r1, .err er) => (r1, .err er)
      | (r1, .panic p) => (r1, .panic p)
      | (r1, .out) => (r1, .out)
    | .While condition body =>
      match resolveExpr fuel r condition with
      | (r1, .ok condition2) =>
        match resolveStmt fuel r1 body with
        | (r2, .ok body2) => (r2, .ok (.While condition2 body2))
        | other => other
      | (r1, .err er) => (r1, .err er)
      | (r1, .panic p) => (r1, .panic p)
      | (r1, .out) => (r1, .out)
    | .Print expression =>
      match resolveExpr fuel r expression with
      | (r1, .ok expression2) => (r1, .ok (.Print expression2))
      | (r1, .err er) => (r1, .err er)
      | (r1, .panic p) => (r1, .panic p)
      | (r1, .out) => (r1, .out)
    | .Return keyword value =>
      -- visit_return_stmt
      if r.current_function = FunctionType.None then
        (r, .err (.Resolve keyword.line "Can't return from top-level code."))
      else
        match value with
        | some exist_ret_value =>
          if r.current_function = FunctionType.Initializer then
            (r, .err (.Resolve keyword.line
              "Can't return a value from an initializer."))
          else
            match resolveExpr fuel r exist_ret_value with
            | (r1, .ok value2) => (r1, .ok (.Return keyword (some value2)))
            | (r1, .err er) => (r1, .err er)
            | (r1, .panic p) => (r1, .panic p)
            | (r1, .out) => (r1, .out)
        | none => (r, .ok (.Return keyword none))
    | .Var name initializer =>
      -- visit_var_stmt: declare, resolve the initializer, then define
      match r.declare name with
      | (r1, .ok ()) =>
        match initializer with
        | some expr =>
          match resolveExpr fuel r1 expr with
          | (r2, .ok expr2) =>
              ((r2.define name), .ok (.Var name (some expr2)))
          | (r2, .err er) => (r2, .err er)
          | (r2, .panic p) => (r2, .panic p)
          | (r2, .out) => (r2, .out)
        | none => ((r1.define name), .ok (.Var name none))
      | (r1, .err er) => (r1, .err er)
      | (r1, .panic p) => (r1, .panic p)
      | (r1, .out) => (r1, .out)

/-- The shared tail of `visit_class_declaration_stmt` once any `super`
scope is pushed: push the `this` scope, resolve the methods (errors
propagate), pop the scopes and restore the class context. -/
def resolveClassBody : Nat → Resolver → ClassDeclaration →
    Option VariableExpr → ClassType → Resolver × Res Stmt
  | 0, r, _, _, _ => (r, .out)
  | fuel + 1, r, cd, superclass2, enclosing_class =>
    match (r.begin_scope).insertTop "this" with
    | (r1, .ok ()) =>
      match resolveMethods fuel r1 cd.methods with
      | (r2, .ok methods2) =>
        let r3 := r2.end_scope
        let r4 := if cd.superclass.isSome then r3.end_scope else r3
        ({ r4 with current_class := enclosing_class },
         .ok (.ClassDeclaration (.mk cd.name superclass2 methods2)))
      | (r2, .err er) => (r2, .err er)
      | (r2, .panic p) => (r2, .panic p)
      | (r2, .out) => (r2, .out)
    | (r1, .err er) => (r1, .err er)
    | (r1, .panic p) => (r1, .panic p)
    | (r1, .out) => (r1, .out)

/-- The method loop of `visit_class_declaration_stmt`: each method is
resolved as an `Initializer` when named `init`, else as a `Method`;
errors propagate with `?`. -/
def resolveMethods : Nat → Resolver → List FunctionDeclaration →
    Resolver × Res (List FunctionDeclaration)
  | 0, r, _ => (r, .out)
  | _ + 1, r, [] => (r, .ok [])
  | fuel + 1, r, m :: rest =>
    let function_type : FunctionType :=
      if m.name.lexeme = "init" then .Initializer else .Method
    match resolveFunction fuel r m function_type with
    | (r1, .ok m2) =>
      match resolveMethods fuel r1 rest with
      | (r2, .ok ms) => (r2, .ok (m2 :: ms))
      | (r2, .err er) => (r2, .err er)
      | (r2, .panic p) => (r2, .panic p)
      | (r2, .out) => (r2, .out)
    | (r1, .err er) => (r1, .err er)
    | (r1, .panic p) => (r1, .panic p)
    | (r1, .out) => (r1, .out)

/-- src/resolver.rs `Resolver::resolve_function`: swap the function
context, push the parameter scope, declare+define the parameters,
resolve the body with the error-swallowing `resolve`, pop, restore. -/
def resolveFunction : Nat → Resolver → FunctionDeclaration → FunctionType →
    Resolver × Res FunctionDeclaration
  | 0, r, _, _ => (r, .out)
  | fuel + 1, r, fd, function_type =>
    let enclosing_function := r.current_function
    let r1 := { r with current_function := function_type }
    match declareParams r1.begin_scope fd.params with
    | (r2, .ok ()) =>
      match resolveStmtList fuel r2 fd.body with
      | (r3, .ok body2) =>
        let r4 := r3.end_scope
        ({ r4 with current_function := enclosing_function },
         .ok (.mk fd.name fd.params body2))
      | (r3, .err er) => (r3, .err er)
      | (r3, .panic p) => (r3, .panic p)
      | (r3, .out) => (r3, .out)
    | (r2, .err er) => (r2, .err er)
    | (r2, .panic p) => (r2, .panic p)
    | (r2, .out) => (r2, .out)

/-- src/resolver.rs `Resolver::resolve` (the statement-list walk): an
erroring statement is reported (collected in `errors`), flagged in
`had_resolve_error`, kept unannotated, and the walk continues. -/
def resolveStmtList : Nat → Resolver → List Stmt →
    Resolver × Res (List Stmt)
  | 0, r, _ => (r, .out)
  | _ + 1, r, [] => (r, .ok [])
  | fuel + 1, r, s :: rest =>
    match resolveStmt fuel r s with
    | (r1, .ok s2) =>
      match resolveStmtList fuel r1 rest with
      | (r2, .ok ss) => (r2, .ok (s2 :: ss))
      | (r2, .err er) => (r2, .err er)
      | (r2, .panic p) => (r2, .panic p)
      | (r2, .out) => (r2, .out)
    | (r1, .err e) =>
      let r2 := { r1 with had_resolve_error := true,
                          errors := r1.errors ++ [e] }
      match resolveStmtList fuel r2 rest with
      | (r3, .ok ss) => (r3, .ok (s :: ss))
      | (r3, .err er) => (r3, .err er)
      | (r3, .panic p) => (r3, .panic p)
      | (r3, .out) => (r3, .out)
    | (r1, .panic p) => (r1, .panic p)
    | (r1, .out) => (r1, .out)
end

/-! The recursive-descent parser (src/parser.rs).  `tokens` is the
scanner's output, a finite stream the driver terminates with `Eof`;
`current` is the cursor.  `diagnostics` collects the non-fatal
`eprintln` reports (the 255-argument/parameter caps). -/

structure Parser where
  tokens : List Token
  current : Nat
  diagnostics : List LoxErr

/-- A default token for out-of-range indexing.  The Rust source indexes
`tokens[current]` directly; on a token list terminated by `Eof` the
cursor never leaves the list (`advance` stops at `Eof`), so the default
is never produced for the runs below. -/
def eofToken : Token := ⟨.Eof, "", .None, 0⟩

/-- src/parser.rs `Parser::peek`. -/
def Parser.peek (p : Parser) : Token := p.tokens.getD p.current eofToken

/-- src/parser.rs `Parser::previous`. -/
def Parser.previous (p : Parser) : Token :=
  p.tokens.getD (p.current - 1) eofToken

/-- src/parser.rs `Parser::is_at_end`. -/
def Parser.is_at_end (p : Parser) : Bool := p.peek.token_type == .Eof

/-- src/parser.rs `Parser::advance`: step unless at `Eof`, answer the
token before the (new) cursor. -/
def Parser.advance (p : Parser) : Parser × Token :=
  let p2 := if p.is_at_end then p else { p with current := p.current + 1 }
  (p2, p2.previous)

/-- src/parser.rs `Parser::check`. -/
def Parser.check (p : Parser) (tt : TokenType) : Bool :=
  if p.is_at_end then false else p.peek.token_type == tt

/-- src/parser.rs `Parser::matches`: advance past the first matching
kind, reporting whether one matched. -/
def Parser.matches : Parser → List TokenType → Parser × Bool
  | p, [] => (p, false)
  | p, t :: rest =>
    if p.check t then ((p.advance).1, true) else p.matches rest

/-- src/parser.rs `Parser::get_match_type`: like `matches` but answers
the matched kind. -/
def Parser.get_match_type : Parser → List TokenType → Parser × Option TokenType
  | p, [] => (p, none)
  | p, t :: rest =>
    if p.check t then ((p.advance).1, some t) else p.get_match_type rest

/-- src/parser.rs `Parser::consume`: advance past the expected kind or
produce a parse error naming the offending lexeme (`end` at `Eof`). -/
def Parser.consume (p : Parser) (tt : TokenType) (message : String) :
    Parser × Res Token :=
  if p.check tt then
    let (p2, t) := p.advance
    (p2, .ok t)
  else
    match p.peek.token_type with
    | .Eof => (p, .err (.Parse p.peek.line "end" message))
    | _ =>
        (p, .err (.Parse p.peek.line ("'" ++ p.peek.lexeme ++ "'") message))

/-- The loop of src/parser.rs `Parser::synchronize`: stop after a `;`
or in front of a statement keyword.  The gas only bounds the loop for
the termination checker; each step advances the cursor, so
`tokens.length + 1` gas always suffices. -/
def synchronizeLoop : Nat → Parser → Parser
  | 0, p => p
  | gas + 1, p =>
    if p.is_at_end then p
    else if p.previous.token_type == .Semicolon then p
    else
      match p.peek.token_type with
      | .Class | .Fun | .Var | .For | .If | .While | .Print | .Return => p
      | _ => synchronizeLoop gas (p.advance).1

/-- src/parser.rs `Parser::synchronize`: skip one token, then discard
tokens up to the next statement boundary. -/
def Parser.synchronize (p : Parser) : Parser :=
  synchronizeLoop (p.tokens.length + 1) (p.advance).1

/-- The tail of src/parser.rs `finish_call`: consume the closing paren
and build the `Call` node. -/
def finishCallEnd (p : Parser) (callee : Expr) (arguments : List Expr) :
    Parser × Res Expr :=
  match p.consume .RightParen "Expect ')' after arguments." with
  | (p1, .ok paren) => (p1, .ok (.Call callee paren arguments))
  | (p1, .err e) => (p1, .err e)
  | (p1, .panic pc) => (p1, .panic pc)
  | (p1, .out) => (p1, .out)

mutual
/-- src/parser.rs `Parser::expression`. -/
def pExpression : Nat → Parser → Parser × Res Expr
  | 0, p => (p, .out)
  | fuel + 1, p => pAssignment fuel p

/-- src/parser.rs `Parser::assignment`: parse the left side as a whole
expression; on `=`, reclassify a `Variable` into `Assign` and a `Get`
into `Set`; any other left side is the "Invalid assignment target."
parse error (returned as `Err`, like every parse error). -/
def pAssignment : Nat → Parser → Parser × Res Expr
  | 0, p => (p, .out)
  | fuel + 1, p =>
    match pOr fuel p with
    | (p1, .ok expr) =>
      let (p2, m) := p1.matches [.Equal]
      if m then
        let equals := p2.previous
        match pAssignment fuel p2 with
        | (p3, .ok value) =>
          match expr with
          | .Variable variable_expr =>
              (p3, .ok (.Assign variable_expr.name value none))
          | .Get object name => (p3, .ok (.Set object name value))
          | _ =>
              (p3, .err (.Parse equals.line equals.lexeme
                "Invalid assignment target."))
        | other => other
      else (p1, .ok expr)
    | other => other

/-- src/parser.rs `Parser::or`. -/
def pOr : Nat → Parser → Parser × Res Expr
  | 0, p => (p, .out)
  | fuel + 1, p =>
    match pAnd fuel p with
    | (p1, .ok expr) => pOrLoop fuel p1 expr
    | other => other

def pOrLoop : Nat → Parser → Expr → Parser × Res Expr
  | 0, p, _ => (p, .out)
  | fuel + 1, p, expr =>
    let (p1, m) := p.matches [.Or]
    if m then
      let operator := p1.previous
      match pAnd fuel p1 with
      | (p2, .ok right) => pOrLoop fuel p2 (.Logical expr operator right)
      | other => other
    else (p1, .ok expr)

/-- src/parser.rs `Parser::and`. -/
def pAnd : Nat → Parser → Parser × Res Expr
  | 0, p => (p, .out)
  | fuel + 1, p =>
    match pEquality fuel p with
    | (p1, .ok expr) => pAndLoop fuel p1 expr
    | other => other

def pAndLoop : Nat → Parser → Expr → Parser × Res Expr
  | 0, p, _ => (p, .out)
  | fuel + 1, p, expr =>
    let (p1, m) := p.matches [.And]
    if m then
      let operator := p1.previous
      match pEquality fuel p1 with
      | (p2, .ok right) => pAndLoop fuel p2 (.Logical expr operator right)
      | other => other
    else (p1, .ok expr)

/-- src/parser.rs `Parser::equality`. -/
def pEquality : Nat → Parser → Parser × Res Expr
  | 0, p => (p, .out)
  | fuel + 1, p =>
    match pComparison fuel p with
    | (p1, .ok expr) => pEqualityLoop fuel p1 expr
    | other => other

def pEqualityLoop : Nat → Parser → Expr → Parser × Res Expr
  | 0, p, _ => (p, .out)
  | fuel + 1, p, expr =>
    let (p1, m) := p.matches [.BangEqual, .EqualEqual]
    if m then
      let operator := p1.previous
      match pComparison fuel p1 with
      | (p2, .ok right) => pEqualityLoop fuel p2 (.Binary expr operator right)
      | other => other
    else (p1, .ok expr)

/-- src/parser.rs `Parser::comparison`. -/
def pComparison : Nat → Parser → Parser × Res Expr
  | 0, p => (p, .out)
  | fuel + 1, p =>
    match pTerm fuel p with
    | (p1, .ok expr) => pComparisonLoop fuel p1 expr
    | other => other

def pComparisonLoop : Nat → Parser → Expr → Parser × Res Expr
  | 0, p, _ => (p, .out)
  | fuel + 1, p, expr =>
    let (p1, m) := p.matches [.Greater, .GreaterEqual, .Less, .LessEqual]
    if m then
      let operator := p1.previous
      match pTerm fuel p1 with
      | (p2, .ok right) => pComparisonLoop fuel p2 (.Binary expr operator right)
      | other => other
    else (p1, .ok expr)

/-- src/parser.rs `Parser::term`. -/
def pTerm : Nat → Parser → Parser × Res Expr
  | 0, p => (p, .out)
  | fuel + 1, p =>
    match pFactor fuel p with
    | (p1, .ok expr) => pTermLoop fuel p1 expr
    | other => other

def pTermLoop : Nat → Parser → Expr → Parser × Res Expr
  | 0, p, _ => (p, .out)
  | fuel + 1, p, expr =>
    let (p1, m) := p.matches [.Minus, .Plus]
    if m then
      let operator := p1.previous
      match pFactor fuel p1 with
      | (p2, .ok right) => pTermLoop fuel p2 (.Binary expr operator right)
      | other => other
    else (p1, .ok expr)

/-- src/parser.rs `Parser::factor`. -/
def pFactor : Nat → Parser → Parser × Res Expr
  | 0, p => (p, .out)
  | fuel + 1, p =>
    match pUnary fuel p with
    | (p1, .ok expr) => pFactorLoop fuel p1 expr
    | other => other

def pFactorLoop : Nat → Parser → Expr → Parser × Res Expr
  | 0, p, _ => (p, .out)
  | fuel + 1, p, expr =>
    let (p1, m) := p.matches [.Slash, .Star]
    if m then
      let operator := p1.previous
      match pUnary fuel p1 with
      | (p2, .ok right) => pFactorLoop fuel p2 (.Binary expr operator right)
      | other => other
    else (p1, .ok expr)

/-- src/parser.rs `Parser::unary`. -/
def pUnary : Nat → Parser → Parser × Res Expr
  | 0, p => (p, .out)
  | fuel + 1, p =>
    let (p1, m) := p.matches [.Bang, .Minus]
    if m then
      let operator := p1.previous
      match pUnary fuel p1 with
      | (p2, .ok right) => (p2, .ok (.Unary operator right))
      | other => other
    else pCall fuel p1

/-- src/parser.rs `Parser::call`: a primary followed by any run of
call-argument lists and `.` property accesses. -/
def pCall : Nat → Parser → Parser × Res Expr
  | 0, p => (p, .out)
  | fuel + 1, p =>
    match pPrimary fuel p with
    | (p1, .ok expr) => pCallLoop fuel p1 expr
    | other => other

def pCallLoop : Nat → Parser → Expr → Parser × Res Expr
  | 0, p, _ => (p, .out)
  | fuel + 1, p, expr =>
    let (p1, mt) := p.get_match_type [.LeftParen, .Dot]
    match mt with
    | some .LeftParen =>
      match pFinishCall fuel p1 expr with
      | (p2, .ok expr2) => pCallLoop fuel p2 expr2
      | other => other
    | some .Dot =>
      match p1.consume .Identifier "Expect property name after '.'." with
      | (p2, .ok name) => pCallLoop fuel p2 (.Get expr name)
      | (p2, .err e) => (p2, .err e)
      | (p2, .panic pc) => (p2, .panic pc)
      | (p2, .out) => (p2, .out)
    | _ => (p1, .ok expr)

/-- src/parser.rs `Parser::finish_call`: arguments up to `)`;
the 255-argument cap is a reported, non-fatal diagnostic. -/
def pFinishCall : Nat → Parser → Expr → Parser × Res Expr
  | 0, p, _ => (p, .out)
  | fuel + 1, p, callee =>
    if p.check .RightParen then finishCallEnd p callee []
    else pArgsLoop fuel p callee []

def pArgsLoop : Nat → Parser → Expr → List Expr → Parser × Res Expr
  | 0, p, _, _ => (p, .out)
  | fuel + 1, p, callee, arguments =>
    let p0 :=
      if arguments.length ≥ 255 then
        { p with diagnostics := p.diagnostics ++
            [.Parse p.peek.line p.peek.lexeme
              "Can't have more than 255 arguments."] }
      else p
    match pExpression fuel p0 with
    | (p1, .ok arg) =>
      let (p2, m) := p1.matches [.Comma]
      if m then pArgsLoop fuel p2 callee (arguments ++ [arg])
      else finishCallEnd p2 callee (arguments ++ [arg])
    | other => other

/-- src/parser.rs `Parser::primary`. -/
def pPrimary : Nat → Parser → Parser × Res Expr
  | 0, p => (p, .out)
  | fuel + 1, p =>
    match p.peek.token_type with
    | .False | .True | .Nil | .Number | .String =>
      let (p1, _) := p.advance
      (p1, .ok (.Literal p1.previous.literal))
    | .This =>
      let (p1, _) := p.advance
      (p1, .ok (.This p1.previous none))
    | .Super =>
      let (p1, _) := p.advance
      let keyword := p1.previous
      match p1.consume .Dot "Expect '.' after 'super'." with
      | (p2, .ok _) =>
        match p2.consume .Identifier "Expect superclass method name." with
        | (p3, .ok method) => (p3, .ok (.Super keyword method none))
        | (p3, .err e) => (p3, .err e)
        | (p3, .panic pc) => (p3, .panic pc)
        | (p3, .out) => (p3, .out)
      | (p2, .err e) => (p2, .err e)
      | (p2, .panic pc) => (p2, .panic pc)
      | (p2, .out) => (p2, .out)
    | .Identifier =>
      let (p1, _) := p.advance
      (p1, .ok (.Variable ⟨p1.previous, none⟩))
    | .LeftParen =>
      let (p1, _) := p.advance
      match pExpression fuel p1 with
      | (p2, .ok expr) =>
        match p2.consume .RightParen "Expect ')' after expression." with
        | (p3, .ok _) => (p3, .ok (.Grouping expr))
        | (p3, .err e) => (p3, .err e)
        | (p3, .panic pc) => (p3, .panic pc)
        | (p3, .out) => (p3, .out)
      | other => other
    | _ => (p, .err (.Parse p.peek.line "" "Expect expression."))
end

mutual
/-- src/parser.rs `Parser::statement`. -/
def pStatement : Nat → Parser → Parser × Res Stmt
  | 0, p => (p, .out)
  | fuel + 1, p =>
    let (p1, mt) := p.get_match_type
      [.If, .Print, .Return, .While, .For, .LeftBrace]
    match mt with
    | some .If => pIfStatement fuel p1
    | some .Print => pPrintStatement fuel p1
    | some .Return => pReturnStatement fuel p1
    | some .While => pWhileStatement fuel p1
    | some .For => pForStatement fuel p1
    | some .LeftBrace =>
      match pBlock fuel p1 with
      | (p2, .ok statements) => (p2, .ok (.Block statements))
      | (p2, .err e) => (p2, .err e)
      | (p2, .panic pc) => (p2, .panic pc)
      | (p2, .out) => (p2, .out)
    | _ => pExpressionStatement fuel p1

/-- src/parser.rs `Parser::if_statement`. -/
def pIfStatement : Nat → Parser → Parser × Res Stmt
  | 0, p => (p, .out)
  | fuel + 1, p =>
    match p.consume .LeftParen "Expect '(' after 'if'." with
    | (p1, .ok _) =>
      match pExpression fuel p1 with
      | (p2, .ok condition) =>
        match p2.consume .RightParen "Expect ')' after if condition." with
        | (p3, .ok _) =>
          match pStatement fuel p3 with
          | (p4, .ok then_branch) =>
            let (p5, m) := p4.matches [.Else]
            if m then
              match pStatement fuel p5 with
              | (p6, .ok else_branch) =>
                  (p6, .ok (.If condition then_branch (some else_branch)))
              | (p6, .err e) => (p6, .err e)
              | (p6, .panic pc) => (p6, .panic pc)
              | (p6, .out) => (p6, .out)
            else (p5, .ok (.If condition then_branch none))
          | (p4, .err e) => (p4, .err e)
          | (p4, .panic pc) => (p4, .panic pc)
          | (p4, .out) => (p4, .out)
        | (p3, .err e) => (p3, .err e)
        | (p3, .panic pc) => (p3, .panic pc)
        | (p3, .out) => (p3, .out)
      | (p2, .err e) => (p2, .err e)
      | (p2, .panic pc) => (p2, .panic pc)
      | (p2, .out) => (p2, .out)
    | (p1, .err e) => (p1, .err e)
    | (p1, .panic pc) => (p1, .panic pc)
    | (p1, .out) => (p1, .out)

/-- src/parser.rs `Parser::while_statement`. -/
def pWhileStatement : Nat → Parser → Parser × Res Stmt
  | 0, p => (p, .out)
  | fuel + 1, p =>
    match p.consume .LeftParen "Expect '(' after 'while'." with
    | (p1, .ok _) =>
      match pExpression fuel p1 with
      | (p2, .ok condition) =>
        match p2.consume .RightParen "Expect ')' after condition." with
        | (p3, .ok _) =>
          match pStatement fuel p3 with
          | (p4, .ok body) => (p4, .ok (.While condition body))
          | (p4, .err e) => (p4, .err e)
          | (p4, .panic pc) => (p4, .panic pc)
          | (p4, .out) => (p4, .out)
        | (p3, .err e) => (p3, .err e)
        | (p3, .panic pc) => (p3, .panic pc)
        | (p3, .out) => (p3, .out)
      | (p2, .err e) => (p2, .err e)
      | (p2, .panic pc) => (p2, .panic pc)
      | (p2, .out) => (p2, .out)
    | (p1, .err e) => (p1, .err e)
    | (p1, .panic pc) => (p1, .panic pc)
    | (p1, .out) => (p1, .out)

/-- src/parser.rs `Parser::for_statement`: desugared into
`Block [initializer, While cond (Block [body, increment])]` exactly as
the source assembles it. -/
def pForStatement : Nat → Parser → Parser × Res Stmt
  | 0, p => (p, .out)
  | fuel + 1, p =>
    match p.consume .LeftParen "Expect '(' after 'for'." with
    | (p1, .ok _) =>
      let (p2, mt) := p1.get_match_type [.Semicolon, .Var]
      match (match mt with
             | some .Semicolon => (p2, .ok none)
             | some .Var =>
               match pVarDeclaration fuel p2 with
               | (pA, .ok s) => (pA, .ok (some s))
               | (pA, .err e) => (pA, .err e)
               | (pA, .panic pc) => (pA, .panic pc)
               | (pA, .out) => (pA, .out)
             | _ =>
               match pExpressionStatement fuel p2 with
               | (pA, .ok s) => (pA, .ok (some s))
               | (pA, .err e) => (pA, .err e)
               | (pA, .panic pc) => (pA, .panic pc)
               | (pA, .out) => (pA, .out) : Parser × Res (Option Stmt)) with
      | (p3, .ok initializer) =>
        match (if p3.check .Semicolon then
                 (p3, .ok (.Literal (.Bool true) : Expr))
               else pExpression fuel p3) with
        | (p4, .ok condition) =>
          match p4.consume .Semicolon "Expect ';' after loop condition." with
          | (p5, .ok _) =>
            match (if p5.check .RightParen then (p5, .ok none)
                   else
                     match pExpression fuel p5 with
                     | (pA, .ok e) => (pA, .ok (some e))
                     | (pA, .err e) => (pA, .err e)
                     | (pA, .panic pc) => (pA, .panic pc)
                     | (pA, .out) => (pA, .out) : Parser × Res (Option Expr)) with
            | (p6, .ok increment) =>
              match p6.consume .RightParen "Expect ')' after for clauses." with
              | (p7, .ok _) =>
                match pStatement fuel p7 with
                | (p8, .ok body) =>
                  let for_body :=
                    match increment with
                    | some inc => Stmt.Block [body, .Expression inc]
                    | none => body
                  let desugar_res := Stmt.While condition for_body
                  let desugar_res2 :=
                    match initializer with
                    | some ini => Stmt.Block [ini, desugar_res]
                    | none => desugar_res
                  (p8, .ok desugar_res2)
                | (p8, .err e) => (p8, .err e)
                | (p8, .panic pc) => (p8, .panic pc)
                | (p8, .out) => (p8, .out)
              | (p7, .err e) => (p7, .err e)
              | (p7, .panic pc) => (p7, .panic pc)
              | (p7, .out) => (p7, .out)
            | (p6, .err e) => (p6, .err e)
            | (p6, .panic pc) => (p6, .panic pc)
            | (p6, .out) => (p6, .out)
          | (p5, .err e) => (p5, .err e)
          | (p5, .panic pc) => (p5, .panic pc)
          | (p5, .out) => (p5, .out)
        | (p4, .err e) => (p4, .err e)
        | (p4, .panic pc) => (p4, .panic pc)
        | (p4, .out) => (p4, .out)
      | (p3, .err e) => (p3, .err e)
      | (p3, .panic pc) => (p3, .panic pc)
      | (p3, .out) => (p3, .out)
    | (p1, .err e) => (p1, .err e)
    | (p1, .panic pc) => (p1, .panic pc)
    | (p1, .out) => (p1, .out)

/-- src/parser.rs `Parser::print_statement`. -/
def pPrintStatement : Nat → Parser → Parser × Res Stmt
  | 0, p => (p, .out)
  | fuel + 1, p =>
    match pExpression fuel p with
    | (p1, .ok value) =>
      match p1.consume .Semicolon "Expect ';' after value." with
      | (p2, .ok _) => (p2, .ok (.Print value))
      | (p2, .err e) => (p2, .err e)
      | (p2, .panic pc) => (p2, .panic pc)
      | (p2, .out) => (p2, .out)
    | (p1, .err e) => (p1, .err e)
    | (p1, .panic pc) => (p1, .panic pc)
    | (p1, .out) => (p1, .out)

/-- src/parser.rs `Parser::return_statement` (the `return` keyword was
already consumed by `statement`). -/
def pReturnStatement : Nat → Parser → Parser × Res Stmt
  | 0, p => (p, .out)
  | fuel + 1, p =>
    let keyword := p.previous
    match (if p.check .Semicolon then (p, .ok none)
           else
             match pExpression fuel p with
             | (pA, .ok e) => (pA, .ok (some e))
             | (pA, .err e) => (pA, .err e)
             | (pA, .panic pc) => (pA, .panic pc)
             | (pA, .out) => (pA, .out) : Parser × Res (Option Expr)) with
    | (p1, .ok value) =>
      match p1.consume .Semicolon "Expect ';' after return value." with
      | (p2, .ok _) => (p2, .ok (.Return keyword value))
      | (p2, .err e) => (p2, .err e)
      | (p2, .panic pc) => (p2, .panic pc)
      | (p2, .out) => (p2, .out)
    | (p1, .err e) => (p1, .err e)
    | (p1, .panic pc) => (p1, .panic pc)
    | (p1, .out) => (p1, .out)

/-- src/parser.rs `Parser::expression_statement`. -/
def pExpressionStatement : Nat → Parser → Parser × Res Stmt
  | 0, p => (p, .out)
  | fuel + 1, p =>
    match pExpression fuel p with
    | (p1, .ok expr) =>
      match p1.consume .Semicolon "Expect ';' after value." with
      | (p2, .ok _) => (p2, .ok (.Expression expr))
      | (p2, .err e) => (p2, .err e)
      | (p2, .panic pc) => (p2, .panic pc)
      | (p2, .out) => (p2, .out)
    | (p1, .err e) => (p1, .err e)
    | (p1, .panic pc) => (p1, .panic pc)
    | (p1, .out) => (p1, .out)

/-- src/parser.rs `Parser::var_declaration`. -/
def pVarDeclaration : Nat → Parser → Parser × Res Stmt
  | 0, p => (p, .out)
  | fuel + 1, p =>
    match p.consume .Identifier "Expect variable name." with
    | (p1, .ok name) =>
      let (p2, m) := p1.matches [.Equal]
      match (if m then
               match pExpression fuel p2 with
               | (pA, .ok e) => (pA, .ok (some e))
               | (pA, .err e) => (pA, .err e)
               | (pA, .panic pc) => (pA, .panic pc)
               | (pA, .out) => (pA, .out)
             else (p2, .ok none) : Parser × Res (Option Expr)) with
      | (p3, .ok initializer) =>
        match p3.consume .Semicolon "Expect ';' after variable declaration." with
        | (p4, .ok _) => (p4, .ok (.Var name initializer))
        | (p4, .err e) => (p4, .err e)
        | (p4, .panic pc) => (p4, .panic pc)
        | (p4, .out) => (p4, .out)
      | (p3, .err e) => (p3, .err e)
      | (p3, .panic pc) => (p3, .panic pc)
      | (p3, .out) => (p3, .out)
    | (p1, .err e) => (p1, .err e)
    | (p1, .panic pc) => (p1, .panic pc)
    | (p1, .out) => (p1, .out)

/-- The parameter loop of src/parser.rs `function_declaration`; the
255-parameter cap is a reported, non-fatal diagnostic. -/
def pParamsLoop : Nat → Parser → List Token → Parser × Res (List Token)
  | 0, p, _ => (p, .out)
  | fuel + 1, p, parameters =>
    let p0 :=
      if parameters.length ≥ 255 then
        { p with diagnostics := p.diagnostics ++
            [.Parse p.peek.line p.peek.lexeme
              "Can't have more than 255 parameters."] }
      else p
    match p0.consume .Identifier "Expect parameter name." with
    | (p1, .ok param) =>
      let (p2, m) := p1.matches [.Comma]
      if m then pParamsLoop fuel p2 (parameters ++ [param])
      else (p2, .ok (parameters ++ [param]))
    | (p1, .err e) => (p1, .err e)
    | (p1, .panic pc) => (p1, .panic pc)
    | (p1, .out) => (p1, .out)

/-- src/parser.rs `Parser::function_declaration` (`kind` is "function"
or "method"). -/
def pFunctionDeclaration : Nat → Parser → String → Parser × Res Stmt
  | 0, p, _ => (p, .out)
  | fuel + 1, p, kind =>
    match p.consume .Identifier ("Expect " ++ kind ++ " name.") with
    | (p1, .ok name) =>
      match p1.consume .LeftParen ("Expect '(' after " ++ kind ++ " name.") with
      | (p2, .ok _) =>
        match (if p2.check .RightParen then (p2, .ok [])
               else pParamsLoop fuel p2 [] : Parser × Res (List Token)) with
        | (p3, .ok parameters) =>
          match p3.consume .RightParen "Expect ')' after parameters." with
          | (p4, .ok _) =>
            match p4.consume .LeftBrace
                ("Expect '\x7b' before " ++ kind ++ " body.") with
            | (p5, .ok _) =>
              match pBlock fuel p5 with
              | (p6, .ok body) =>
                  (p6, .ok (.FunctionDeclaration (.mk name parameters body)))
              | (p6, .err e) => (p6, .err e)
              | (p6, .panic pc) => (p6, .panic pc)
              | (p6, .out) => (p6, .out)
            | (p5, .err e) => (p5, .err e)
            | (p5, .panic pc) => (p5, .panic pc)
            | (p5, .out) => (p5, .out)
          | (p4, .err e) => (p4, .err e)
          | (p4, .panic pc) => (p4, .panic pc)
          | (p4, .out) => (p4, .out)
        | (p3, .err e) => (p3, .err e)
        | (p3, .panic pc) => (p3, .panic pc)
        | (p3, .out) => (p3, .out)
      | (p2, .err e) => (p2, .err e)
      | (p2, .panic pc) => (p2, .panic pc)
      | (p2, .out) => (p2, .out)
    | (p1, .err e) => (p1, .err e)
    | (p1, .panic pc) => (p1, .panic pc)
    | (p1, .out) => (p1, .out)

/-- The method loop of src/parser.rs `class_declaration`:
`function_declaration("method")` until `}` or `Eof`; the
`into_function_declaration().unwrap()` is a panic on any other
statement shape (unreachable). -/
def pMethodsLoop : Nat → Parser → List FunctionDeclaration →
    Parser × Res (List FunctionDeclaration)
  | 0, p, _ => (p, .out)
  | fuel + 1, p, methods =>
    if !p.check .RightBrace && !p.is_at_end then
      match pFunctionDeclaration fuel p "method" with
      | (p1, .ok (.FunctionDeclaration fd)) =>
          pMethodsLoop fuel p1 (methods ++ [fd])
      | (p1, .ok _) => (p1, .panic "called Option::unwrap on a None value")
      | (p1, .err e) => (p1, .err e)
      | (p1, .panic pc) => (p1, .panic pc)
      | (p1, .out) => (p1, .out)
    else (p, .ok methods)

/-- src/parser.rs `Parser::class_declaration`. -/
def pClassDeclaration : Nat → Parser → Parser × Res Stmt
  | 0, p => (p, .out)
  | fuel + 1, p =>
    match p.consume .Identifier "Expect class name." with
    | (p1, .ok name) =>
      let (p2, m) := p1.matches [.Less]
      match (if m then
               match p2.consume .Identifier "Expect superclass name." with
               | (pA, .ok _) => (pA, .ok (some (⟨pA.previous, none⟩ : VariableExpr)))
               | (pA, .err e) => (pA, .err e)
               | (pA, .panic pc) => (pA, .panic pc)
               | (pA, .out) => (pA, .out)
             else (p2, .ok none) : Parser × Res (Option VariableExpr)) with
      | (p3, .ok superclass) =>
        match p3.consume .LeftBrace "Expect '\x7b' before class body." with
        | (p4, .ok _) =>
          match pMethodsLoop fuel p4 [] with
          | (p5, .ok methods) =>
            match p5.consume .RightBrace "Expect '\x7d' after class body." with
            | (p6, .ok _) =>
                (p6, .ok (.ClassDeclaration (.mk name superclass methods)))
            | (p6, .err e) => (p6, .err e)
            | (p6, .panic pc) => (p6, .panic pc)
            | (p6, .out) => (p6, .out)
          | (p5, .err e) => (p5, .err e)
          | (p5, .panic pc) => (p5, .panic pc)
          | (p5, .out) => (p5, .out)
        | (p4, .err e) => (p4, .err e)
        | (p4, .panic pc) => (p4, .panic pc)
        | (p4, .out) => (p4, .out)
      | (p3, .err e) => (p3, .err e)
      | (p3, .panic pc) => (p3, .panic pc)
      | (p3, .out) => (p3, .out)
    | (p1, .err e) => (p1, .err e)
    | (p1, .panic pc) => (p1, .panic pc)
    | (p1, .out) => (p1, .out)

/-- The statement loop of src/parser.rs `Parser::block` (the `{` was
already consumed). -/
def pBlockLoop : Nat → Parser → List Stmt → Parser × Res (List Stmt)
  | 0, p, _ => (p, .out)
  | fuel + 1, p, statements =>
    if !p.check .RightBrace && !p.is_at_end then
      match pDeclaration fuel p with
      | (p1, .ok s) => pBlockLoop fuel p1 (statements ++ [s])
      | (p1, .err e) => (p1, .err e)
      | (p1, .panic pc) => (p1, .panic pc)
      | (p1, .out) => (p1, .out)
    else (p, .ok statements)

/-- src/parser.rs `Parser::block`. -/
def pBlock : Nat → Parser → Parser × Res (List Stmt)
  | 0, p => (p, .out)
  | fuel + 1, p =>
    match pBlockLoop fuel p [] with
    | (p1, .ok statements) =>
      match p1.consume .RightBrace "Expect '\x7d' after block." with
      | (p2, .ok _) => (p2, .ok statements)
      | (p2, .err e) => (p2, .err e)
      | (p2, .panic pc) => (p2, .panic pc)
      | (p2, .out) => (p2, .out)
    | (p1, .err e) => (p1, .err e)
    | (p1, .panic pc) => (p1, .panic pc)
    | (p1, .out) => (p1, .out)

/-- src/parser.rs `Parser::declaration`. -/
def pDeclaration : Nat → Parser → Parser × Res Stmt
  | 0, p => (p, .out)
  | fuel + 1, p =>
    let (p1, mt) := p.get_match_type [.Var, .Fun, .Class]
    match mt with
    | some .Var => pVarDeclaration fuel p1
    | some .Fun => pFunctionDeclaration fuel p1 "function"
    | some .Class => pClassDeclaration fuel p1
    | _ => pStatement fuel p1
end

/-- src/parser.rs `Parser::parse`: collect declarations until `Eof`; a
parse error is reported (collected here in order) and the parser
synchronizes, then the loop continues. -/
def parseLoop : Nat → Parser → Parser × List Stmt × List LoxErr × Res Unit
  | 0, p => (p, [], [], .out)
  | fuel + 1, p =>
    if p.is_at_end then (p, [], [], .ok ())
    else
      match pDeclaration fuel p with
      | (p1, .ok stmt) =>
        match parseLoop fuel p1 with
        | (p2, ss, errs, r) => (p2, stmt :: ss, errs, r)
      | (p1, .err e) =>
        match parseLoop fuel p1.synchronize with
        | (p2, ss, errs, r) => (p2, ss, e :: errs, r)
      | (p1, .panic pc) => (p1, [], [], .panic pc)
      | (p1, .out) => (p1, [], [], .out)

/-- `Parser::new` + `parse` on a token list. -/
def parse (fuel : Nat) (tokens : List Token) :
    Parser × List Stmt × List LoxErr × Res Unit :=
  parseLoop fuel ⟨tokens, 0, []⟩

/-! Concrete tokens, programs and states used by the witnesses and
counterexamples below. -/

/-- The discriminant of a runtime value (which `enum` variant it is),
used to state that values of different runtime kinds compare unequal. -/
def Object.kind : Object → Nat
  | .None => 0
  | .Bool _ => 1
  | .String _ => 2
  | .Number _ => 3
  | .Function _ => 4
  | .NativeFunction _ => 5
  | .Class _ => 6
  | .Instance _ => 7

/-- An identifier token on line 1. -/
def identTok (s : String) : Token := ⟨.Identifier, s, .None, 1⟩

/-- A keyword/punctuation token on line 1. -/
def kwTok (tt : TokenType) (s : String) : Token := ⟨tt, s, .None, 1⟩

/-- A number token on line 1. -/
def numTok (n : Rat) (s : String) : Token := ⟨.Number, s, .Number n, 1⟩

/-- A user function `fun f() {}` closing over globals, for the C1
witness. -/
def c1Fun : LoxFunction := ⟨.mk (identTok "f") [] [], 0, false⟩

/-- An interpreter state whose globals bind `clock` (native) and `f`
(the zero-parameter user function above). -/
def c1St : Interp :=
  { had_runtime_error := false
    environment := 0
    globals := 0
    envs := [⟨none, [("clock", Object.NativeFunction ⟨"clock"⟩),
                     ("f", Object.Function c1Fun)]⟩]
    instances := []
    clock_time := 0 }

/-- `class A {} var x = A(); var y = A();` as global statements (the
resolver leaves every annotation unset at global scope). -/
def c2Prog : List Stmt :=
  [.ClassDeclaration (.mk (identTok "A") none []),
   .Var (identTok "x")
     (some (.Call (.Variable ⟨identTok "A", none⟩) (kwTok .RightParen ")") [])),
   .Var (identTok "y")
     (some (.Call (.Variable ⟨identTok "A", none⟩) (kwTok .RightParen ")") []))]

/-- The state after running `c2Prog` from a fresh interpreter. -/
def c2St : Interp := (interpret 30 (mkInterpreter 0) c2Prog).1

/-- `x == y` on the two instances of `c2Prog`. -/
def c2EqExpr : Expr :=
  .Binary (.Variable ⟨identTok "x", none⟩) (kwTok .EqualEqual "==")
    (.Variable ⟨identTok "y", none⟩)

/-- `class P { init() { return; } }` as a runtime class value: its
`init` executes a bare `return;`, closing over globals. -/
def c3Init : LoxFunction :=
  ⟨.mk (identTok "init") [] [.Return (kwTok .Return "return") none], 0, true⟩

def c3Class : LoxClass := .mk "P" none [("init", c3Init)]

/-- The token stream of `1 = 2 print 5; print 6;`: an invalid assignment
target followed by two print statements. -/
def c8Toks : List Token :=
  [numTok 1 "1", kwTok .Equal "=", numTok 2 "2", kwTok .Print "print",
   numTok 5 "5", kwTok .Semicolon ";", kwTok .Print "print", numTok 6 "6",
   kwTok .Semicolon ";", kwTok .Eof ""]

/-- `{ var a = a = 2; }` exactly as the parser builds it (the inner
assignment target `a` is the variable being declared). -/
def c10Raw : Stmt :=
  .Block [.Var (identTok "a")
    (some (.Assign (identTok "a") (.Literal (.Number 2)) none))]

/-- `c10Raw` as the resolver annotates it: the assignment target gets
distance 0 (the block scope contains the just-declared `a`). -/
def c10Resolved : Stmt :=
  .Block [.Var (identTok "a")
    (some (.Assign (identTok "a") (.Literal (.Number 2)) (some 0)))]

/-! Claim theorems. -/

/-- C7: for a binary `/` whose operands evaluate to numbers, a zero right
operand yields the runtime error "Attempt to divide `<left>` by zero."
(whose text has "Attempt to divide" as a prefix), and a nonzero right
operand yields the numeric quotient. -/
theorem c7_division_by_zero (fuel : Nat) (st st1 st2 : Interp)
    (left right : Expr) (operator : Token) (a b : Rat)
    (hop : operator.token_type = .Slash)
    (hl : evaluate fuel st left = (st1, .ok (.Number a)))
    (hr : evaluate fuel st1 right = (st2, .ok (.Number b))) :
    (b = 0 →
      evaluate (fuel + 1) st (.Binary left operator right) =
        (st2, .err (.Runtime operator.line
          ("Attempt to divide `" ++ numToString a ++ "` by zero."))) ∧
      "Attempt to divide".data <+:
        ("Attempt to divide `" ++ numToString a ++ "` by zero.").data) ∧
    (b ≠ 0 →
      evaluate (fuel + 1) st (.Binary left operator right) =
        (st2, .ok (.Number (a / b)))) := by
  constructor
  · intro hb
    constructor
    · simp [evaluate, hl, hr, binaryOp, hop, hb]
    · refine ⟨(" `" ++ numToString a ++ "` by zero.").data, ?_⟩
      show "Attempt to divide".data ++ _ = _
      simp only [String.data_append]
      rfl
  · intro hb
    simp [evaluate, hl, hr, binaryOp, hop, hb]

/-- C7 witness: `1/0` is the runtime error with the expected message. -/
theorem c7_division_by_zero_witness :
    evaluate 2 (mkInterpreter 0)
      (.Binary (.Literal (.Number 1)) (kwTok .Slash "/")
        (.Literal (.Number 0))) =
      (mkInterpreter 0, .err (.Runtime 1 "Attempt to divide `1` by zero.")) ∧
    "Attempt to divide".data <+: "Attempt to divide `1` by zero.".data := by
  have h := (c7_division_by_zero 1 (mkInterpreter 0) (mkInterpreter 0)
    (mkInterpreter 0) (.Literal (.Number 1)) (.Literal (.Number 0))
    (kwTok .Slash "/") 1 0 rfl rfl rfl).1 rfl
  exact ⟨h.1, h.2⟩

/-- C5: `or` returns the left operand without evaluating the right when
it is truthy and otherwise evaluates to whatever the right operand
evaluates to; `and` dually short-circuits on a falsy left operand; the
short-circuit result is the left operand value itself (not a coerced
boolean), and only nil and `false` are falsy. -/
theorem c5_logical_short_circuit (fuel : Nat) (st st1 : Interp)
    (left right : Expr) (operator : Token) (l : Object)
    (hl : evaluate fuel st left = (st1, .ok l)) :
    (operator.token_type = .Or → is_truthy l = true →
      evaluate (fuel + 1) st (.Logical left operator right) = (st1, .ok l)) ∧
    (operator.token_type = .Or → is_truthy l = false →
      evaluate (fuel + 1) st (.Logical left operator right) =
        evaluate fuel st1 right) ∧
    (operator.token_type = .And → is_truthy l = false →
      evaluate (fuel + 1) st (.Logical left operator right) = (st1, .ok l)) ∧
    (operator.token_type = .And → is_truthy l = true →
      evaluate (fuel + 1) st (.Logical left operator right) =
        evaluate fuel st1 right) ∧
    (is_truthy l = false ↔ l = .None ∨ l = .Bool false) := by
  refine ⟨?_, ?_, ?_, ?_, ?_⟩
  · intro hop ht
    simp [evaluate, hl, hop, ht]
  · intro hop ht
    simp [evaluate, hl, hop, ht]
  · intro hop ht
    have : operator.token_type ≠ TokenType.Or := by rw [hop]; intro h; cases h
    simp [evaluate, hl, this, ht]
  · intro hop ht
    have : operator.token_type ≠ TokenType.Or := by rw [hop]; intro h; cases h
    simp [evaluate, hl, this, ht]
  · cases l <;> simp [is_truthy]

/-- C5 witness: `nil or "x"` evaluates the right operand and yields its
value; `"a" and 2` likewise; `"a" or 2` yields the left string itself. -/
theorem c5_logical_short_circuit_witness :
    evaluate 2 (mkInterpreter 0)
      (.Logical (.Literal .None) (kwTok .Or "or") (.Literal (.String "x"))) =
      (mkInterpreter 0, .ok (.String "x")) ∧
    evaluate 2 (mkInterpreter 0)
      (.Logical (.Literal (.String "a")) (kwTok .And "and")
        (.Literal (.Number 2))) = (mkInterpreter 0, .ok (.Number 2)) ∧
    evaluate 2 (mkInterpreter 0)
      (.Logical (.Literal (.String "a")) (kwTok .Or "or")
        (.Literal (.Number 2))) = (mkInterpreter 0, .ok (.String "a")) := by
  have h1 := (c5_logical_short_circuit 1 (mkInterpreter 0) (mkInterpreter 0)
    (.Literal .None) (.Literal (.String "x")) (kwTok .Or "or") .None
    rfl).2.1 rfl rfl
  have h2 := (c5_logical_short_circuit 1 (mkInterpreter 0) (mkInterpreter 0)
    (.Literal (.String "a")) (.Literal (.Number 2)) (kwTok .And "and")
    (.String "a") rfl).2.2.2.1 rfl rfl
  have h3 := (c5_logical_short_circuit 1 (mkInterpreter 0) (mkInterpreter 0)
    (.Literal (.String "a")) (.Literal (.Number 2)) (kwTok .Or "or")
    (.String "a") rfl).1 rfl rfl
  refine ⟨?_, ?_, h3⟩
  · rw [h1]; rfl
  · rw [h2]; rfl

/-- C6: executing a block allocates a fresh environment whose parent is
the current environment and runs the body through `execute_block`; the
body runs with the fresh environment as the current one, and the
previous current environment is restored whatever the outcome — normal
completion, a runtime error, or a return signal. -/
theorem c6_block_restores_environment :
    (∀ fuel (st : Interp) stmts,
      execute (fuel + 1) st (.Block stmts) =
        executeBlock fuel
          { st with envs := st.envs ++ [⟨some st.environment, []⟩] }
          stmts st.envs.length) ∧
    (∀ fuel (st st2 : Interp) stmts envAddr ret,
      execStmts fuel { st with environment := envAddr } stmts = (st2, ret) →
      executeBlock (fuel + 1) st stmts envAddr =
        ({ st2 with environment := st.environment }, ret)) ∧
    (∀ fuel (st : Interp) stmts envAddr,
      ((executeBlock fuel st stmts envAddr).1).environment =
        st.environment) := by
  refine ⟨?_, ?_, ?_⟩
  · intro fuel st stmts
    simp [execute, Interp.allocEnv]
  · intro fuel st st2 stmts envAddr ret h
    simp [executeBlock, h]
  · intro fuel st stmts envAddr
    match fuel with
    | 0 => rfl
    | fuel + 1 => simp only [executeBlock]

/-- C6 witness: a block around `var a = 1;` runs the body in a fresh
child of the current environment and ends with the current environment
restored after normal completion; a block around `return 1;` restores it
after the return signal; a block around `1/0;` restores it after the
runtime error. -/
theorem c6_block_restores_environment_witness :
    execute 3 (mkInterpreter 0)
      (.Block [.Var (identTok "a") (some (.Literal (.Number 1)))]) =
      executeBlock 2
        { mkInterpreter 0 with
            envs := (mkInterpreter 0).envs ++ [⟨some 0, []⟩] }
        [.Var (identTok "a") (some (.Literal (.Number 1)))] 1 ∧
    ((executeBlock 2
        { mkInterpreter 0 with
            envs := (mkInterpreter 0).envs ++ [⟨some 0, []⟩] }
        [.Var (identTok "a") (some (.Literal (.Number 1)))] 1).1).environment
      = 0 ∧
    (execute 3 (mkInterpreter 0)
      (.Block [.Return (kwTok .Return "return")
        (some (.Literal (.Number 1)))])).1.environment = 0 ∧
    (execute 3 (mkInterpreter 0)
      (.Block [.Expression (.Binary (.Literal (.Number 1))
        (kwTok .Slash "/") (.Literal (.Number 0)))])).1.environment = 0 := by
  refine ⟨?_, ?_, ?_, ?_⟩
  · exact c6_block_restores_environment.1 2 (mkInterpreter 0)
      [.Var (identTok "a") (some (.Literal (.Number 1)))]
  · exact c6_block_restores_environment.2.2 2
      { mkInterpreter 0 with
          envs := (mkInterpreter 0).envs ++ [⟨some 0, []⟩] }
      [.Var (identTok "a") (some (.Literal (.Number 1)))] 1
  · rw [c6_block_restores_environment.1 2 (mkInterpreter 0)
      [.Return (kwTok .Return "return") (some (.Literal (.Number 1)))]]
    exact c6_block_restores_environment.2.2 2 _ _ 1
  · rw [c6_block_restores_environment.1 2 (mkInterpreter 0)
      [.Expression (.Binary (.Literal (.Number 1)) (kwTok .Slash "/")
        (.Literal (.Number 0)))]]
    exact c6_block_restores_environment.2.2 2 _ _ 1

/-- C3: calling a class that has an `init` method returns, whenever the
call succeeds, exactly the freshly created instance (the address
allocated by the call), never the initializer body's own result and
never nil; and any successful call of a function whose
`is_initializer` flag is set answers precisely the `this` binding at
distance 0 of the function's closure — covering both normal completion
of the body and a bare `return;`, which both route through
`get_at(0, "this")`. -/
theorem c3_initializer_returns_instance :
    (∀ fuel (st st2 : Interp) (c : LoxClass) args v ft,
      c.find_method "init" = some ft →
      loxClassCall (fuel + 1) st c args = (st2, .ok v) →
      v = .Instance st.instances.length) ∧
    (∀ fuel (st st2 : Interp) (f : LoxFunction) args v,
      f.is_initializer = true →
      loxFunctionCall (fuel + 1) st f args = (st2, .ok v) →
      st2.getAt f.closure 0 "this" = .ok v) := by
  constructor
  · intro fuel st st2 c args v ft hinit hcall
    simp only [loxClassCall, hinit] at hcall
    split at hcall
    · rename_i st3 r heq
      simp only [Prod.mk.injEq] at hcall
      cases hcall.2
      rfl
    · exact absurd hcall (by simp)
    · exact absurd hcall (by simp)
    · exact absurd hcall (by simp)
  · intro fuel st st2 f args v hinit hcall
    simp only [loxFunctionCall, hinit, if_true] at hcall
    split at hcall
    · -- bindParams succeeded
      split at hcall
      · -- return signal caught
        simp only [Prod.mk.injEq] at hcall
        rename_i st3 hblock
        rcases hcall with ⟨h1, h2⟩
        rw [← h1, ← h2]
      · exact absurd hcall (by simp)
      · -- normal completion
        simp only [Prod.mk.injEq] at hcall
        rename_i st3 hblock
        rcases hcall with ⟨h1, h2⟩
        rw [← h1, ← h2]
      · exact absurd hcall (by simp)
      · exact absurd hcall (by simp)
    · exact absurd hcall (by simp)
    · exact absurd hcall (by simp)
    · exact absurd hcall (by simp)

/-- C3 witness: `class P { init() { return; } }` called with no
arguments yields the instance at the first free address (0), and the
bound initializer's `this` binding is that instance. -/
theorem c3_initializer_returns_instance_witness :
    c3Class.find_method "init" = some c3Init ∧
    (loxClassCall 10 (mkInterpreter 0) c3Class []).2 =
      .ok (.Instance 0) ∧
    ((loxClassCall 10 (mkInterpreter 0) c3Class []).2 =
        .ok (.Instance ((mkInterpreter 0).instances.length))) := by
  refine ⟨rfl, rfl, ?_⟩
  have h := c3_initializer_returns_instance.1 9 (mkInterpreter 0)
    (loxClassCall 10 (mkInterpreter 0) c3Class []).1 c3Class []
    (.Instance 0) c3Init rfl rfl
  rw [← h]
  rfl

/-- C1 counterexample: the native `clock` called with one argument (its
arity is 0) does not produce an arity runtime error — the call succeeds
and returns the clock value.  The claimed exact arity check therefore
does not cover all three callable kinds. -/
theorem c1_arity_counterexample :
    NativeFunction.arity ⟨"clock"⟩ = .ok 0 ∧
    evaluate 10 (mkInterpreter 0)
      (.Call (.Variable ⟨identTok "clock", none⟩) (kwTok .RightParen ")")
        [.Literal (.Number 1)]) =
      (mkInterpreter 0, .ok (.Number 0)) :=
  ⟨rfl, rfl⟩

/-- C1 amended: after the callee and the arguments are evaluated, the
exact arity check (runtime error naming expected and actual counts)
applies only when the callee is a user-defined function; a native
function is invoked with no arity comparison, a class forwards its
arguments to its initializer with no arity comparison, and a callee of
any other kind is the runtime error "Can only call functions and
classes." -/
theorem c1_arity_check_user_functions_only (fuel : Nat)
    (st st1 st2 : Interp) (callee : Expr) (paren : Token)
    (arguments : List Expr) (v : Object) (args : List Object)
    (hc : evaluate fuel st callee = (st1, .ok v))
    (ha : evalArgs fuel st1 arguments = (st2, .ok args)) :
    (∀ f, v = .Function f → args.length ≠ f.arity →
      evaluate (fuel + 1) st (.Call callee paren arguments) =
        (st2, .err (.Runtime paren.line
          ("Expected " ++ toString f.arity ++ " arguments but got " ++
           toString args.length ++ ".")))) ∧
    (∀ f, v = .Function f → args.length = f.arity →
      evaluate (fuel + 1) st (.Call callee paren arguments) =
        loxFunctionCall fuel st2 f args) ∧
    (∀ nf, v = .NativeFunction nf →
      evaluate (fuel + 1) st (.Call callee paren arguments) =
        nativeFunctionCall st2 nf args) ∧
    (∀ c, v = .Class c →
      evaluate (fuel + 1) st (.Call callee paren arguments) =
        loxClassCall fuel st2 c args) ∧
    ((∀ f, v ≠ .Function f) → (∀ nf, v ≠ .NativeFunction nf) →
     (∀ c, v ≠ .Class c) →
      evaluate (fuel + 1) st (.Call callee paren arguments) =
        (st2, .err (.Runtime paren.line
          "Can only call functions and classes."))) := by
  refine ⟨?_, ?_, ?_, ?_, ?_⟩
  · intro f hv hn
    subst hv
    simp [evaluate, hc, ha, hn]
  · intro f hv hn
    subst hv
    simp [evaluate, hc, ha, hn]
  · intro nf hv
    subst hv
    simp [evaluate, hc, ha]
  · intro c hv
    subst hv
    simp [evaluate, hc, ha]
  · intro h1 h2 h3
    cases v <;> first
      | exact absurd rfl (h1 _)
      | exact absurd rfl (h2 _)
      | exact absurd rfl (h3 _)
      | simp [evaluate, hc, ha]

/-- C1 amended witness: calling a zero-parameter user function with one
argument is the runtime error "Expected 0 arguments but got 1.", while a
number callee is "Can only call functions and classes." -/
theorem c1_arity_check_user_functions_only_witness :
    evaluate 6 c1St
      (.Call (.Variable ⟨identTok "f", none⟩) (kwTok .RightParen ")")
        [.Literal (.Number 1)]) =
      (c1St, .err (.Runtime 1 "Expected 0 arguments but got 1.")) ∧
    evaluate 6 c1St
      (.Call (.Literal (.Number 3)) (kwTok .RightParen ")") []) =
      (c1St, .err (.Runtime 1 "Can only call functions and classes.")) := by
  constructor
  · have h := (c1_arity_check_user_functions_only 5 c1St c1St c1St
      (.Variable ⟨identTok "f", none⟩) (kwTok .RightParen ")")
      [.Literal (.Number 1)] (.Function c1Fun) [.Number 1] rfl rfl).1
      c1Fun rfl (by decide)
    rw [h]
    rfl
  · have h := (c1_arity_check_user_functions_only 5 c1St c1St c1St
      (.Literal (.Number 3)) (kwTok .RightParen ")") [] (.Number 3) []
      rfl rfl).2.2.2.2 (fun f hf => by cases hf) (fun nf hf => by cases hf)
      (fun c hf => by cases hf)
    rw [h]
    rfl

/-- C2 counterexample: after `class A {} var x = A(); var y = A();`, the
variables hold two distinct instance handles (addresses 0 and 1), yet
`x == y` evaluates to true — instance equality is structural (derived
`PartialEq` compares the borrowed contents), not handle identity. -/
theorem c2_identity_counterexample :
    lookUpVariable c2St (identTok "x") none = .ok (.Instance 0) ∧
    lookUpVariable c2St (identTok "y") none = .ok (.Instance 1) ∧
    (0 : Addr) ≠ 1 ∧
    evaluate 30 c2St c2EqExpr = (c2St, .ok (.Bool true)) :=
  ⟨rfl, rfl, by decide, rfl⟩

/-- C2 amended: `==` (and `!=` as its negation) evaluates via the
derived structural `PartialEq`: nil equals only nil, primitives compare
by value, values of different runtime kinds compare unequal with no
numeric coercion of booleans, and two instance values compare by the
structure of the referenced contents (class, then fields) — not by
handle identity. -/
theorem c2_equality_structural :
    (∀ fuel (st : Interp), objEq (fuel + 1) st .None .None = .ok true) ∧
    (∀ fuel (st : Interp) b c,
      objEq (fuel + 1) st (.Bool b) (.Bool c) = .ok (b == c)) ∧
    (∀ fuel (st : Interp) s t,
      objEq (fuel + 1) st (.String s) (.String t) = .ok (s == t)) ∧
    (∀ fuel (st : Interp) x y,
      objEq (fuel + 1) st (.Number x) (.Number y) = .ok (decide (x = y))) ∧
    (∀ fuel (st : Interp) a b, Object.kind a ≠ Object.kind b →
      objEq (fuel + 1) st a b = .ok false) ∧
    (∀ fuel (st : Interp) i j ii jj,
      st.instances.get? i = some ii → st.instances.get? j = some jj →
      objEq (fuel + 1) st (.Instance i) (.Instance j) = instEq fuel st ii jj) ∧
    (∀ fuel (st : Interp) (operator : Token) (l r : Object) b,
      operator.token_type = .EqualEqual → objEq fuel st l r = .ok b →
      binaryOp fuel st operator l r = .ok (.Bool b)) ∧
    (∀ fuel (st : Interp) (operator : Token) (l r : Object) b,
      operator.token_type = .BangEqual → objEq fuel st l r = .ok b →
      binaryOp fuel st operator l r = .ok (.Bool (!b))) := by
  refine ⟨?_, ?_, ?_, ?_, ?_, ?_, ?_, ?_⟩
  · intro fuel st; rfl
  · intro fuel st b c; rfl
  · intro fuel st s t; rfl
  · intro fuel st x y; rfl
  · intro fuel st a b h
    cases a <;> cases b <;> first
      | rfl
      | exact absurd rfl h
  · intro fuel st i j ii jj h1 h2
    rw [List.get?_eq_getElem?] at h1 h2
    simp [objEq, h1, h2]
  · intro fuel st operator l r b hop heq
    simp [binaryOp, hop, heq]
  · intro fuel st operator l r b hop heq
    simp [binaryOp, hop, heq]

/-- C2 amended witness: nil only equals nil (`nil == false` is false, no
boolean coercion), a boolean never equals a number, the two distinct
instances of `c2Prog` compare by contents (true), and `!=` on them is
false. -/
theorem c2_equality_structural_witness :
    objEq 5 c2St .None .None = .ok true ∧
    objEq 5 c2St .None (.Bool false) = .ok false ∧
    objEq 5 c2St (.Bool true) (.Number 1) = .ok false ∧
    objEq 5 c2St (.Instance 0) (.Instance 1) =
      instEq 4 c2St ⟨.mk "A" none [], []⟩ ⟨.mk "A" none [], []⟩ ∧
    binaryOp 5 c2St (kwTok .BangEqual "!=") (.Instance 0) (.Instance 1) =
      .ok (.Bool false) := by
  refine ⟨c2_equality_structural.1 4 c2St, ?_, ?_, ?_, ?_⟩
  · exact c2_equality_structural.2.2.2.2.1 4 c2St .None (.Bool false)
      (by decide)
  · exact c2_equality_structural.2.2.2.2.1 4 c2St (.Bool true) (.Number 1)
      (by decide)
  · exact c2_equality_structural.2.2.2.2.2.1 4 c2St 0 1
      ⟨.mk "A" none [], []⟩ ⟨.mk "A" none [], []⟩ rfl rfl
  · exact c2_equality_structural.2.2.2.2.2.2.2 5 c2St
      (kwTok .BangEqual "!=") (.Instance 0) (.Instance 1) true rfl rfl

/-- C4: `resolve_local` records as the distance exactly the number of
scope boundaries between the use site (the innermost scope, at the head)
and the innermost scope declaring the name: a recorded distance `d`
means scope `d` contains the name and every scope nearer the use site
does not; the annotation is left unset exactly when no scope on the
stack (i.e. no enclosing non-global scope) declares the name, and at
interpret time an unset annotation makes `look_up_variable` read the
globals. -/
theorem c4_resolve_local_distance :
    (∀ (scopes : List (List (String × Bool))) (name : String) (d : Nat),
      resolveLocalScopes scopes name = some d →
      (∃ scope, scopes.get? d = some scope ∧ alistContains scope name = true) ∧
      (∀ j, j < d → ∀ scope, scopes.get? j = some scope →
        alistContains scope name = false)) ∧
    (∀ scopes name, resolveLocalScopes scopes name = none ↔
      ∀ scope ∈ scopes, alistContains scope name = false) ∧
    (∀ (r : Resolver) (name : String), r.resolve_local name none = none ↔
      ∀ scope ∈ r.scopes, alistContains scope name = false) ∧
    (∀ (st : Interp) (name : Token),
      lookUpVariable st name none = st.envGet st.globals name) := by
  have part1 : ∀ (scopes : List (List (String × Bool))) (name : String)
      (d : Nat), resolveLocalScopes scopes name = some d →
      (∃ scope, scopes.get? d = some scope ∧ alistContains scope name = true) ∧
      (∀ j, j < d → ∀ scope, scopes.get? j = some scope →
        alistContains scope name = false) := by
    intro scopes name
    induction scopes with
    | nil => intro d h; simp [resolveLocalScopes] at h
    | cons scope rest ih =>
      intro d h
      by_cases hc : alistContains scope name
      · simp [resolveLocalScopes, hc] at h
        subst h
        exact ⟨⟨scope, rfl, hc⟩, fun j hj => absurd hj (Nat.not_lt_zero j)⟩
      · simp [resolveLocalScopes, hc] at h
        rcases h with ⟨d2, hd2, rfl⟩
        rcases ih d2 hd2 with ⟨⟨sc, hsc, hcon⟩, hbefore⟩
        refine ⟨⟨sc, by rw [List.get?_cons_succ]; exact hsc, hcon⟩, ?_⟩
        intro j hj sc2 hsc2
        match j with
        | 0 =>
          rw [List.get?_cons_zero] at hsc2
          cases hsc2
          exact Bool.eq_false_iff.mpr hc
        | j + 1 =>
          rw [List.get?_cons_succ] at hsc2
          exact hbefore j (Nat.lt_of_succ_lt_succ hj) sc2 hsc2
  have part2 : ∀ (scopes : List (List (String × Bool))) (name : String),
      resolveLocalScopes scopes name = none ↔
      ∀ scope ∈ scopes, alistContains scope name = false := by
    intro scopes name
    induction scopes with
    | nil => simp [resolveLocalScopes]
    | cons scope rest ih =>
      by_cases hc : alistContains scope name
      · simp [resolveLocalScopes, hc]
      · have hcf : alistContains scope name = false := Bool.eq_false_iff.mpr hc
        rw [show resolveLocalScopes (scope :: rest) name =
          (resolveLocalScopes rest name).map (· + 1) by
            simp [resolveLocalScopes, hcf]]
        rw [Option.map_eq_none']
        rw [ih]
        constructor
        · intro h sc hsc
          rcases List.mem_cons.mp hsc with rfl | hmem
          · exact Bool.eq_false_iff.mpr hc
          · exact h sc hmem
        · intro h sc hsc
          exact h sc (List.mem_cons_of_mem _ hsc)
  refine ⟨part1, part2, ?_, ?_⟩
  · intro r name
    have : r.resolve_local name none =
        (match resolveLocalScopes r.scopes name with
         | some d => some d
         | none => none) := rfl
    rw [this]
    rcases h : resolveLocalScopes r.scopes name with _ | d
    · simpa [h] using (part2 r.scopes name).mp h
    · constructor
      · intro hcon; cases hcon
      · intro hall
        exact absurd h (by simp [(part2 r.scopes name).mpr hall])
  · intro st name; rfl

/-- C4 witness: on the stack `[[("a", true)], [("b", true)]]` (innermost
first) the name `b` resolves to distance 1, scope 1 contains it, and the
nearer scope 0 does not; `z` resolves nowhere, and the unset annotation
sends the interpreter to the globals. -/
theorem c4_resolve_local_distance_witness :
    ((∃ scope, [[("a", true)], [("b", true)]].get? 1 = some scope ∧
        alistContains scope "b" = true) ∧
     (∀ j, j < 1 → ∀ scope,
        [[("a", true)], [("b", true)]].get? j = some scope →
        alistContains scope "b" = false)) ∧
    (Resolver.resolve_local
      ⟨false, [], [[("a", true)], [("b", true)]], .None, .None⟩ "z" none =
        none) ∧
    lookUpVariable (mkInterpreter 0) (identTok "q") none =
      (mkInterpreter 0).envGet (mkInterpreter 0).globals (identTok "q") := by
  refine ⟨?_, ?_, ?_⟩
  · exact c4_resolve_local_distance.1 [[("a", true)], [("b", true)]] "b" 1 rfl
  · exact (c4_resolve_local_distance.2.2.1
      ⟨false, [], [[("a", true)], [("b", true)]], .None, .None⟩ "z").mpr
      (by decide)
  · exact c4_resolve_local_distance.2.2.2 (mkInterpreter 0) (identTok "q")

/-- C9 counterexample: re-declaring `a` in an occupied innermost scope
produces the resolve error whose message is
"Already variable with this name in this scope." — not the claimed
"Already a variable with this name in this scope". -/
theorem c9_redeclare_message_counterexample :
    Resolver.declare ⟨false, [], [[("a", false)]], .None, .None⟩
      (identTok "a") =
      (⟨false, [], [[("a", false)]], .None, .None⟩,
       .err (.Resolve 1 "Already variable with this name in this scope.")) ∧
    "Already variable with this name in this scope." ≠
      "Already a variable with this name in this scope" :=
  ⟨rfl, by decide⟩

/-- C9 amended: declaring a name already present in the current
non-global scope is the resolve error "Already variable with this name
in this scope."; when the name is new, it is inserted undefined; with an
empty scope stack (global scope) declaring is always permitted and
changes nothing. -/
theorem c9_redeclare_local_error (r : Resolver) (name : Token) :
    (r.scopes = [] → r.declare name = (r, .ok ())) ∧
    (∀ scope rest, r.scopes = scope :: rest →
      alistContains scope name.lexeme = true →
      r.declare name = (r, .err (.Resolve name.line
        "Already variable with this name in this scope."))) ∧
    (∀ scope rest, r.scopes = scope :: rest →
      alistContains scope name.lexeme = false →
      r.declare name =
        ({ r with scopes := alistInsert scope name.lexeme false :: rest },
         .ok ())) := by
  refine ⟨?_, ?_, ?_⟩
  · intro h
    simp [Resolver.declare, h]
  · intro scope rest h hc
    simp [Resolver.declare, h, hc]
  · intro scope rest h hc
    simp [Resolver.declare, h, hc]

/-- C9 amended witness: at global scope (empty stack) re-declaring is
fine; in a local scope holding `a`, declaring `a` is the error and
declaring the fresh `b` inserts it undefined. -/
theorem c9_redeclare_local_error_witness :
    Resolver.declare mkResolver (identTok "a") = (mkResolver, .ok ()) ∧
    Resolver.declare ⟨false, [], [[("a", false)]], .None, .None⟩
      (identTok "a") =
      (⟨false, [], [[("a", false)]], .None, .None⟩,
       .err (.Resolve 1 "Already variable with this name in this scope.")) ∧
    Resolver.declare ⟨false, [], [[("a", false)]], .None, .None⟩
      (identTok "b") =
      (⟨false, [], [[("a", false), ("b", false)]], .None, .None⟩,
       .ok ()) := by
  refine ⟨?_, ?_, ?_⟩
  · exact (c9_redeclare_local_error mkResolver (identTok "a")).1 rfl
  · exact (c9_redeclare_local_error
      ⟨false, [], [[("a", false)]], .None, .None⟩ (identTok "a")).2.1
      [("a", false)] [] rfl rfl
  · exact (c9_redeclare_local_error
      ⟨false, [], [[("a", false)]], .None, .None⟩ (identTok "b")).2.2
      [("a", false)] [] rfl rfl

/-- C8 counterexample: parsing `1 = 2 print 5; print 6;` reports
"Invalid assignment target." and then synchronizes, so the following
tokens `print 5 ;` (present in the input right after the error point)
are skipped: the output is just `print 6;`.  The claimed
"reported without discarding subsequent input" does not hold. -/
theorem c8_sync_discards_counterexample :
    parse 50 c8Toks =
      (⟨c8Toks, 9, []⟩, [.Print (.Literal (.Number 6))],
       [.Parse 1 "=" "Invalid assignment target."], .ok ()) ∧
    c8Toks.get? 3 = some (kwTok .Print "print") ∧
    c8Toks.get? 4 = some (numTok 5 "5") :=
  ⟨rfl, rfl, rfl⟩

/-- C8 amended: after the left side parses as an expression and `=` is
seen, a `Variable` left side becomes `Assign`, a `Get` left side becomes
`Set`, and any other left side is the parse error "Invalid assignment
target." carried by the `=` token; the error propagates to the `parse`
loop, which records it and synchronizes — skipping tokens up to the next
statement boundary — before continuing; without `=` the expression
passes through unchanged. -/
theorem c8_invalid_assignment_target (fuel : Nat) (p p1 : Parser)
    (expr : Expr) (hOr : pOr fuel p = (p1, .ok expr)) :
    (∀ p2 p3 value, p1.matches [.Equal] = (p2, true) →
      pAssignment fuel p2 = (p3, .ok value) →
      (∀ ve, expr = .Variable ve →
        pAssignment (fuel + 1) p = (p3, .ok (.Assign ve.name value none))) ∧
      (∀ o n, expr = .Get o n →
        pAssignment (fuel + 1) p = (p3, .ok (.Set o n value))) ∧
      ((∀ ve, expr ≠ .Variable ve) → (∀ o n, expr ≠ .Get o n) →
        pAssignment (fuel + 1) p =
          (p3, .err (.Parse p2.previous.line p2.previous.lexeme
            "Invalid assignment target.")))) ∧
    (∀ p2, p1.matches [.Equal] = (p2, false) →
      pAssignment (fuel + 1) p = (p1, .ok expr)) ∧
    (∀ fuel2 (q q1 : Parser) e, q.is_at_end = false →
      pDeclaration fuel2 q = (q1, .err e) →
      parseLoop (fuel2 + 1) q =
        ((parseLoop fuel2 q1.synchronize).1,
         (parseLoop fuel2 q1.synchronize).2.1,
         e :: (parseLoop fuel2 q1.synchronize).2.2.1,
         (parseLoop fuel2 q1.synchronize).2.2.2)) := by
  refine ⟨?_, ?_, ?_⟩
  · intro p2 p3 value hm hv
    refine ⟨?_, ?_, ?_⟩
    · intro ve hve
      subst hve
      simp [pAssignment, hOr, hm, hv]
    · intro o n hget
      subst hget
      simp [pAssignment, hOr, hm, hv]
    · intro hnv hng
      cases expr <;> first
        | exact absurd rfl (hnv _)
        | exact absurd rfl (hng _ _)
        | simp [pAssignment, hOr, hm, hv]
  · intro p2 hm
    simp [pAssignment, hOr, hm]
  · intro fuel2 q q1 e hend hdecl
    simp only [parseLoop, hend, Bool.false_eq_true, if_false, hdecl]

/-- C8 amended witness: on the tokens of `a = 1;` the left side `a`
reclassifies into an assignment; on `1 = 2 print 5; print 6;` the parse
loop records the error and resumes after synchronization, keeping only
`print 6;`. -/
theorem c8_invalid_assignment_target_witness :
    pAssignment 20 ⟨[identTok "a", kwTok .Equal "=", numTok 1 "1",
        kwTok .Semicolon ";", kwTok .Eof ""], 0, []⟩ =
      (⟨[identTok "a", kwTok .Equal "=", numTok 1 "1",
         kwTok .Semicolon ";", kwTok .Eof ""], 3, []⟩,
       .ok (.Assign (identTok "a") (.Literal (.Number 1)) none)) ∧
    parseLoop 50 ⟨c8Toks, 0, []⟩ =
      ((parseLoop 49 (Parser.synchronize ⟨c8Toks, 3, []⟩)).1,
       (parseLoop 49 (Parser.synchronize ⟨c8Toks, 3, []⟩)).2.1,
       .Parse 1 "=" "Invalid assignment target." ::
         (parseLoop 49 (Parser.synchronize ⟨c8Toks, 3, []⟩)).2.2.1,
       (parseLoop 49 (Parser.synchronize ⟨c8Toks, 3, []⟩)).2.2.2) := by
  constructor
  · have h := ((c8_invalid_assignment_target 19
      ⟨[identTok "a", kwTok .Equal "=", numTok 1 "1",
        kwTok .Semicolon ";", kwTok .Eof ""], 0, []⟩
      ⟨[identTok "a", kwTok .Equal "=", numTok 1 "1",
        kwTok .Semicolon ";", kwTok .Eof ""], 1, []⟩
      (.Variable ⟨identTok "a", none⟩) rfl).1
      ⟨[identTok "a", kwTok .Equal "=", numTok 1 "1",
        kwTok .Semicolon ";", kwTok .Eof ""], 2, []⟩
      ⟨[identTok "a", kwTok .Equal "=", numTok 1 "1",
        kwTok .Semicolon ";", kwTok .Eof ""], 3, []⟩
      (.Literal (.Number 1)) rfl rfl).1 ⟨identTok "a", none⟩ rfl
    exact h
  · exact (c8_invalid_assignment_target 19
      ⟨[identTok "a", kwTok .Equal "=", numTok 1 "1",
        kwTok .Semicolon ";", kwTok .Eof ""], 0, []⟩
      ⟨[identTok "a", kwTok .Equal "=", numTok 1 "1",
        kwTok .Semicolon ";", kwTok .Eof ""], 1, []⟩
      (.Variable ⟨identTok "a", none⟩) rfl).2.2 49 ⟨c8Toks, 0, []⟩
      ⟨c8Toks, 3, []⟩ (.Parse 1 "=" "Invalid assignment target.") rfl rfl

/-- C10: the program `{ var a = a = 2; }` is accepted by the resolver
with no error — `declare` puts `a` (still undefined) into the block
scope, and `visit_assign_expr` has no own-initializer check, so
`resolve_local` records distance 0 for the assignment target — yet
executing the resolved program panics: `visit_var_stmt` evaluates the
initializer before defining `a`, so `assign_at(0, "a")` unwraps a
missing binding inside `Environment::assign_at`.  The recorded distance
reaches an environment where the target name is not (yet) bound,
refuting the never-panics claim on the `Assign` side. -/
theorem c10_resolved_assign_panics :
    (resolveStmtList 20 mkResolver [c10Raw]).1.had_resolve_error = false ∧
    (resolveStmtList 20 mkResolver [c10Raw]).1.errors = [] ∧
    (resolveStmtList 20 mkResolver [c10Raw]).2 = .ok [c10Resolved] ∧
    (interpret 30 (mkInterpreter 0) [c10Resolved]).2.2 =
      .panic "called Option::unwrap on a None value" :=
  ⟨rfl, rfl, rfl, rfl⟩

end Rilox
